import Mathlib

/-!
# Secure buffer lock / unlock

A shallow embedding of `drivers/staging/android/ion/msm/secure_buffer.c`.

The file is built for a 32-bit ARM kernel: `secure_buffer_change_chunk` casts a
`u32` to a pointer, so `int`, `unsigned int`, `unsigned long`, `size_t` and
pointers are all 32 bits wide.  Signed values are modelled in `Int`, unsigned
values in `Nat`, and every conversion between the two is written out
(`to_u32`, `to_int`).

The collaborators of the file (the allocator, the address translation and the
secure-monitor call) are parameters, gathered in `Kernel`.  The effects of one
operation are collected in a `World`: the `PagePrivate` flag of every page and
the ordered log of the calls made to the collaborators.

The scatterlist of a table is a list of entries; the pointer `sg` of the region
loop is the list of the entries from `sg` on, and NULL is the empty list.  An
operation either returns a status or dereferences NULL (`Result`).  The region
loop is defined by recursion on that list, so every run of it ends.
-/

namespace SecureBuffer

/-! ## Machine integers -/

/-- Conversion of a C integer to a 32-bit unsigned type: the value modulo 2^32. -/
def to_u32 (x : Int) : Nat := (x % 4294967296).toNat

/-- Conversion of a 32-bit unsigned value to `int` (two-complement reading). -/
def to_int (n : Nat) : Int :=
  if n % 4294967296 < 2147483648 then ((n % 4294967296 : Nat) : Int)
  else ((n % 4294967296 : Nat) : Int) - 4294967296

/-- Result of an `int` computation: the mathematical value wrapped to 32 bits. -/
def int_wrap (x : Int) : Int := to_int (to_u32 x)

/-! ## Constants -/

/-- `#define MEM_PROTECT_LOCK_ID2 0x0A`. -/
def MEM_PROTECT_LOCK_ID2 : Nat := 0x0A

/-- `#define V2_CHUNK_SIZE SZ_1M`, with `SZ_1M = 0x00100000` (linux/sizes.h). -/
def V2_CHUNK_SIZE : Int := 0x00100000

/-- `#define FEATURE_ID_CP 12`. -/
def FEATURE_ID_CP : Nat := 12

/-- Service identifier of the memory-protection service (`SCM_SVC_MP` of
soc/qcom/scm.h, a header that is not part of the translated file). -/
def SCM_SVC_MP : Nat := 0xC

/-- Error number `EINVAL` (asm-generic/errno-base.h). -/
def EINVAL : Int := 22

/-- Error number `ENOMEM` (asm-generic/errno-base.h). -/
def ENOMEM : Int := 12

/-- Page size of the target (asm/page.h, `PAGE_SHIFT = 12`). -/
def PAGE_SIZE : Nat := 4096

/-- `sizeof(unsigned long)` on the 32-bit target. -/
def sizeof_unsigned_long : Nat := 4

/-! ## Data model -/

/-- `struct cp2_mem_chunks` (packed): three 32-bit fields. -/
structure cp2_mem_chunks where
  chunk_list : Nat
  chunk_list_size : Nat
  chunk_size : Nat
deriving DecidableEq, Repr

/-- `struct cp2_lock_req` (packed): the chunk description followed by two
32-bit fields. -/
structure cp2_lock_req where
  chunks : cp2_mem_chunks
  mem_usage : Nat
  lock : Nat
deriving DecidableEq, Repr

/-- `sizeof(struct cp2_lock_req)`: five packed 32-bit fields. -/
def sizeof_cp2_lock_req : Nat := 4 + 4 + 4 + 4 + 4

/-- One scatterlist entry, a physically contiguous region.  `page` identifies
the first page of the region (its page frame number), `dma_address` and
`dma_length` are the fields read by `sg_dma_address` and `sg_dma_len`. -/
structure scatterlist where
  page : Nat
  dma_address : Nat
  dma_length : Nat
deriving DecidableEq, Repr

/-- `sg_page(sg)`. -/
def sg_page (sg : scatterlist) : Nat := sg.page

/-- `sg_dma_address(sg)`. -/
def sg_dma_address (sg : scatterlist) : Nat := sg.dma_address

/-- `sg_dma_len(sg)`, an `unsigned int`. -/
def sg_dma_len (sg : scatterlist) : Nat := sg.dma_length

/-- `struct sg_table`: `sgl` is the chain of entries reached from the first one
by `sg_next` (which yields NULL after the last entry) and `nents` the entry
count stored in the table. -/
structure sg_table where
  sgl : List scatterlist
  nents : Nat
deriving DecidableEq, Repr

/-- One call of `scm_call` as issued by `secure_buffer_change_chunk`: the
service and command identifiers, the request, its byte length, the words held
by the chunk list the request points to, and the status returned.  `sg` notes
the scatterlist entry for which the call was made. -/
structure MonitorCall where
  sg : scatterlist
  svc_id : Nat
  cmd_id : Nat
  request : cp2_lock_req
  cmd_len : Nat
  chunk_list : List Nat
  ret : Int
deriving DecidableEq, Repr

/-- Calls made to the collaborators, in program order. -/
inductive Event where
  | mutex_lock
  | mutex_unlock
  | warn (i : Int) (size : Int)
  | kzalloc (size : Nat) (ptr : Option Nat)
  | dmac_flush_range (start : Nat) (stop : Nat)
  | scm_call (call : MonitorCall)
  | kfree (ptr : Nat)
deriving DecidableEq, Repr

/-- Observable state: the `PagePrivate` flag of every page and the log of the
operation. -/
structure World where
  PagePrivate : Nat → Bool
  log : List Event

/-- Append an event to the log. -/
def World.emit (w : World) (e : Event) : World :=
  { w with log := w.log ++ [e] }

/-- `SetPagePrivate(page)`. -/
def SetPagePrivate (page : Nat) (w : World) : World :=
  { w with PagePrivate := fun p => if p = page then true else w.PagePrivate p }

/-- `ClearPagePrivate(page)`. -/
def ClearPagePrivate (page : Nat) (w : World) : World :=
  { w with PagePrivate := fun p => if p = page then false else w.PagePrivate p }

/-- The collaborators.  Each answer may depend on everything that happened
before in the operation (the log).  `kzalloc` answers `none` for NULL;
`scm_call` sees the request and the words of the chunk list it points to and
answers with the status code. -/
structure Kernel where
  kzalloc : List Event → Nat → Option Nat
  virt_to_phys : Nat → Nat
  scm_call : List Event → cp2_lock_req → List Nat → Int

/-- How one pass through the body of the region loop ends: by a `return`
statement, or by reaching the end of the body with the values then held by the
variables `i` and `ret`. -/
inductive Iter where
  | returned (code : Int) (w : World)
  | next (i : Int) (ret : Int) (w : World)

/-- How an operation ends: it returns a status, or it dereferences the NULL
scatterlist pointer. -/
inductive Result where
  | ret (code : Int) (w : World)
  | fault (w : World)

/-- Status returned, if the operation returned. -/
def Result.code : Result → Option Int
  | Result.ret c _ => some c
  | Result.fault _ => none

/-- State in which the operation ended. -/
def Result.world : Result → World
  | Result.ret _ w => w
  | Result.fault w => w

/-- Whether the operation ended by dereferencing the NULL scatterlist pointer. -/
def Result.faulted : Result → Bool
  | Result.ret _ _ => false
  | Result.fault _ => true

/-- The monitor calls of a log, in order. -/
def monitor_calls : List Event → List MonitorCall
  | [] => []
  | Event.scm_call c :: es => c :: monitor_calls es
  | _ :: es => monitor_calls es

/-! ## The code -/

/-- The request built by `secure_buffer_change_chunk(chunks, nchunks,
chunk_size, lock)`; the first three parameters are `u32`, `lock` is an `int`
stored in an `unsigned int` field.  The function then calls `scm_call` with
this request and returns its status (see `secure_buffer_change_sg`); the
response word is not read, and the two `kmap` flushes before the call touch
nothing that is modelled. -/
def secure_buffer_change_chunk_request (chunks nchunks chunk_size : Nat) (lock : Int) :
    cp2_lock_req :=
  { chunks := { chunk_list := chunks, chunk_list_size := nchunks, chunk_size := chunk_size },
    mem_usage := 0,
    lock := to_u32 lock }

/-- The inner loop `for (i = 0; i < nchunks; i++) chunk_list[i] = base + i *
V2_CHUNK_SIZE;`, entered with the current `i` and buffer.  The first argument
bounds the number of passes; `nchunks.toNat` passes reach the exit test.  The
result is the final `i` and the buffer. -/
def fill_chunk_list (base : Nat) (nchunks : Int) : Nat → Int → List Nat → Int × List Nat
  | 0, i, chunk_list => (i, chunk_list)
  | fuel + 1, i, chunk_list =>
    if i < nchunks then
      fill_chunk_list base nchunks fuel (int_wrap (i + 1))
        (chunk_list.set i.toNat (to_u32 ((base : Int) + int_wrap (i * V2_CHUNK_SIZE))))
    else (i, chunk_list)

/-- Body of the region loop of `secure_buffer_change_table` for the entry `sg`,
entered with loop index `i`. -/
def secure_buffer_change_sg (K : Kernel) (lock : Int) (sg : scatterlist) (i : Int)
    (w : World) : Iter :=
  let size : Int := to_int (sg_dma_len sg)
  let base : Nat := to_u32 (sg_dma_address sg)
  if size = 0 ∨ size.tmod V2_CHUNK_SIZE ≠ 0 then
    Iter.returned (-EINVAL) (w.emit (Event.warn i size))
  else
    let nchunks : Int := size.tdiv V2_CHUNK_SIZE
    let chunk_list_len : Int := to_int (to_u32 (sizeof_unsigned_long * nchunks))
    match K.kzalloc w.log (to_u32 chunk_list_len) with
    | none => Iter.returned (-ENOMEM) (w.emit (Event.kzalloc (to_u32 chunk_list_len) none))
    | some chunk_list =>
      let w1 := w.emit (Event.kzalloc (to_u32 chunk_list_len) (some chunk_list))
      let filled := fill_chunk_list base nchunks nchunks.toNat 0
        (List.replicate (to_u32 chunk_list_len / sizeof_unsigned_long) 0)
      let w2 := w1.emit (Event.dmac_flush_range chunk_list
        (to_u32 ((chunk_list : Int) + sizeof_unsigned_long * chunk_list_len)))
      let request := secure_buffer_change_chunk_request (to_u32 (K.virt_to_phys chunk_list))
        (to_u32 nchunks) (to_u32 V2_CHUNK_SIZE) lock
      let ret := K.scm_call w2.log request filled.2
      let w3 := w2.emit (Event.scm_call
        { sg := sg, svc_id := SCM_SVC_MP, cmd_id := MEM_PROTECT_LOCK_ID2, request := request,
          cmd_len := sizeof_cp2_lock_req, chunk_list := filled.2, ret := ret })
      let w4 := if ret = 0 then
          (if lock ≠ 0 then SetPagePrivate (sg_page sg) w3 else ClearPagePrivate (sg_page sg) w3)
        else w3
      Iter.next filled.1 ret (w4.emit (Event.kfree chunk_list))

/-- The loop `for_each_sg(table->sgl, sg, table->nents, i)` of
`secure_buffer_change_table`, that is `for (i = 0, sg = sgl; i < nents; i++, sg
= sg_next(sg))` (linux/scatterlist.h), from the point where the test is
evaluated.  The list is the chain of entries from `sg` on, the empty list being
the NULL pointer; `i` is compared as an `unsigned int`.  The body assigns `i`,
so the increment applies to the value left by the body. -/
def for_each_sg (K : Kernel) (nents : Nat) (lock : Int) :
    List scatterlist → Int → Int → World → Result
  | [], i, ret, w => if to_u32 i < nents then Result.fault w else Result.ret ret w
  | sg :: rest, i, ret, w =>
    if to_u32 i < nents then
      match secure_buffer_change_sg K lock sg i w with
      | Iter.returned code w1 => Result.ret code w1
      | Iter.next i1 ret1 w1 => for_each_sg K nents lock rest (int_wrap (i1 + 1)) ret1 w1
    else Result.ret ret w

/-- `secure_buffer_change_table(table, lock)`. -/
def secure_buffer_change_table (K : Kernel) (table : sg_table) (lock : Int) (w : World) :
    Result :=
  for_each_sg K table.nents lock table.sgl 0 (-EINVAL) w

/-- `msm_ion_secure_table(table)`, started with the page flags `flags`: take
the mutex, run `secure_buffer_change_table(table, 1)`, release the mutex,
return the status. -/
def msm_ion_secure_table (K : Kernel) (table : sg_table) (flags : Nat → Bool) : Result :=
  match secure_buffer_change_table K table 1
      { PagePrivate := flags, log := [Event.mutex_lock] } with
  | Result.ret code w => Result.ret code (w.emit Event.mutex_unlock)
  | Result.fault w => Result.fault w

/-- `msm_ion_unsecure_table(table)`, started with the page flags `flags`: take
the mutex, run `secure_buffer_change_table(table, 0)`, release the mutex,
return the status. -/
def msm_ion_unsecure_table (K : Kernel) (table : sg_table) (flags : Nat → Bool) : Result :=
  match secure_buffer_change_table K table 0
      { PagePrivate := flags, log := [Event.mutex_lock] } with
  | Result.ret code w => Result.ret code (w.emit Event.mutex_unlock)
  | Result.fault w => Result.fault w

/-- `MAKE_CP_VERSION(major, minor, patch)`, an `int` expression. -/
def MAKE_CP_VERSION (major minor patch : Nat) : Int :=
  to_int (((major &&& 0x3FF) <<< 22) ||| ((minor &&& 0x3FF) <<< 12) ||| (patch &&& 0xFFF))

/-- `msm_secure_v2_is_supported()`; the parameter is `scm_get_feat_version`,
which returns a `u32`. -/
def msm_secure_v2_is_supported (scm_get_feat_version : Nat → Nat) : Bool :=
  let version : Int := to_int (scm_get_feat_version FEATURE_ID_CP)
  decide (version ≥ MAKE_CP_VERSION 1 1 0)

/-! ## Names used in the statements and proofs -/

/-- The two entry points with the value of `lock` as a parameter:
`msm_ion_secure_table` is the case `lock = 1`, `msm_ion_unsecure_table` the
case `lock = 0`. -/
def locked_change_table (K : Kernel) (table : sg_table) (lock : Int) (flags : Nat → Bool) :
    Result :=
  match secure_buffer_change_table K table lock
      { PagePrivate := flags, log := [Event.mutex_lock] } with
  | Result.ret code w => Result.ret code (w.emit Event.mutex_unlock)
  | Result.fault w => Result.fault w

/-- State in which a pass through the loop body ended. -/
def Iter.world : Iter → World
  | Iter.returned _ w => w
  | Iter.next _ _ w => w

/-- Number of bytes requested from `kzalloc` for the entry `sg`. -/
def chunk_list_bytes (sg : scatterlist) : Nat :=
  to_u32 (to_int (to_u32 (sizeof_unsigned_long * (to_int (sg_dma_len sg)).tdiv V2_CHUNK_SIZE)))

/-- The chunk list after the inner loop, with the final loop index. -/
def filled_chunk_list (sg : scatterlist) : Int × List Nat :=
  fill_chunk_list (to_u32 (sg_dma_address sg)) ((to_int (sg_dma_len sg)).tdiv V2_CHUNK_SIZE)
    ((to_int (sg_dma_len sg)).tdiv V2_CHUNK_SIZE).toNat 0
    (List.replicate (chunk_list_bytes sg / sizeof_unsigned_long) 0)

/-- End address handed to `dmac_flush_range` for the buffer at `va`. -/
def flush_stop (sg : scatterlist) (va : Nat) : Nat :=
  to_u32 ((va : Int) + sizeof_unsigned_long *
    to_int (to_u32 (sizeof_unsigned_long * (to_int (sg_dma_len sg)).tdiv V2_CHUNK_SIZE)))

/-- The monitor call issued by the loop body for `sg` when the chunk list was
allocated at `va` and the log before the body was `log`. -/
def issued_call (K : Kernel) (lock : Int) (sg : scatterlist) (log : List Event) (va : Nat) :
    MonitorCall :=
  { sg := sg, svc_id := SCM_SVC_MP, cmd_id := MEM_PROTECT_LOCK_ID2,
    request := secure_buffer_change_chunk_request (to_u32 (K.virt_to_phys va))
      (to_u32 ((to_int (sg_dma_len sg)).tdiv V2_CHUNK_SIZE)) (to_u32 V2_CHUNK_SIZE) lock,
    cmd_len := sizeof_cp2_lock_req,
    chunk_list := (filled_chunk_list sg).2,
    ret := K.scm_call
      (log ++ [Event.kzalloc (chunk_list_bytes sg) (some va),
        Event.dmac_flush_range va (flush_stop sg va)])
      (secure_buffer_change_chunk_request (to_u32 (K.virt_to_phys va))
        (to_u32 ((to_int (sg_dma_len sg)).tdiv V2_CHUNK_SIZE)) (to_u32 V2_CHUNK_SIZE) lock)
      (filled_chunk_list sg).2 }

/-- Where a logged monitor call `c` comes from: it was issued for an entry of
`all` that passed the size check, and the log holds, one after the other, the
allocation of its chunk list at some address `va`, the cache flush, the call
itself and the release of the chunk list; the call is the one the loop body
builds for that entry, that address and the log before the allocation. -/
def call_origin (K : Kernel) (lock : Int) (all : List scatterlist) (log : List Event)
    (c : MonitorCall) : Prop :=
  c.sg ∈ all ∧
  ¬ (to_int (sg_dma_len c.sg) = 0 ∨ (to_int (sg_dma_len c.sg)).tmod V2_CHUNK_SIZE ≠ 0) ∧
  ∃ (before after : List Event) (va : Nat),
    log = before ++ [Event.kzalloc (chunk_list_bytes c.sg) (some va),
      Event.dmac_flush_range va (flush_stop c.sg va), Event.scm_call c, Event.kfree va] ++ after ∧
    K.kzalloc before (chunk_list_bytes c.sg) = some va ∧
    c = issued_call K lock c.sg before va

/-- The request as it lies in memory: `struct cp2_lock_req` and the
`struct cp2_mem_chunks` inside it are packed and all their fields are 32 bits
wide, so the request is the sequence of its five fields in declaration order,
one 32-bit word each. -/
def cp2_lock_req_words (r : cp2_lock_req) : List Nat :=
  [r.chunks.chunk_list, r.chunks.chunk_list_size, r.chunks.chunk_size, r.mem_usage, r.lock]

/-! ## Vocabulary of the specification -/

/-- The pages covered by a region: the `sg_dma_len / PAGE_SIZE` pages that
start at its first page. -/
def page_in_region (sg : scatterlist) (p : Nat) : Prop :=
  sg_page sg ≤ p ∧ p < sg_page sg + sg_dma_len sg / PAGE_SIZE

/-- The value reported for the version `major.minor.patch` under the
three-field encoding of the specification: `(major << 22) | (minor << 12) |
patch`. -/
def encoded_version (major minor patch : Nat) : Nat :=
  (major <<< 22) ||| (minor <<< 12) ||| patch

/-- Lexicographic comparison of version triples: `a` is at least `b`. -/
def version_ge (a b : Nat × Nat × Nat) : Prop :=
  b.1 < a.1 ∨ (a.1 = b.1 ∧ (b.2.1 < a.2.1 ∨ (a.2.1 = b.2.1 ∧ b.2.2 ≤ a.2.2)))

/-! ## Example inputs -/

/-- Collaborators that always succeed. -/
def kernel_ok : Kernel :=
  { kzalloc := fun _ _ => some 0xC1000000,
    virt_to_phys := fun va => va - 0x40000000,
    scm_call := fun _ _ _ => 0 }

/-- Collaborators whose monitor rejects the first call of an operation with
status `-5` and accepts every later one. -/
def kernel_first_call_fails : Kernel :=
  { kzalloc := fun _ _ => some 0xC1000000,
    virt_to_phys := fun va => va - 0x40000000,
    scm_call := fun log _ _ => if monitor_calls log = [] then -5 else 0 }

/-- No page is flagged. -/
def no_flags : Nat → Bool := fun _ => false

/-- Every page is flagged. -/
def all_flags : Nat → Bool := fun _ => true

/-- The region of the specification example: 3 MiB at `0x80000000`. -/
def region_3M : scatterlist :=
  { page := 0x80000, dma_address := 0x80000000, dma_length := 0x300000 }

/-- A region of 1 MiB. -/
def region_1M_a : scatterlist :=
  { page := 0x80000, dma_address := 0x80000000, dma_length := 0x100000 }

/-- A second region of 1 MiB. -/
def region_1M_b : scatterlist :=
  { page := 0x80100, dma_address := 0x80100000, dma_length := 0x100000 }

/-- A region of 2 MiB. -/
def region_2M : scatterlist :=
  { page := 0x80200, dma_address := 0x80200000, dma_length := 0x200000 }

/-- A region of half a MiB, not a multiple of the chunk size. -/
def region_half : scatterlist :=
  { page := 0x80100, dma_address := 0x80100000, dma_length := 0x80000 }

/-- The table holding only `region_3M`. -/
def table_3M : sg_table := { sgl := [region_3M], nents := 1 }

/-- A table of two entries: 1 MiB, then half a MiB. -/
def table_1M_half : sg_table := { sgl := [region_1M_a, region_half], nents := 2 }

/-- A table of three entries: 1 MiB, 1 MiB, 2 MiB. -/
def table_1M_1M_2M : sg_table :=
  { sgl := [region_1M_a, region_1M_b, region_2M], nents := 3 }

/-- A state with no flag set and an empty log. -/
def world_zero : World := { PagePrivate := no_flags, log := [] }

/-- Collaborators whose allocator grants at most 4 MiB and whose monitor
accepts every call. -/
def kernel_bounded : Kernel :=
  { kzalloc := fun _ n => if n ≤ 4194304 then some 0xC1000000 else none,
    virt_to_phys := fun va => va - 0x40000000,
    scm_call := fun _ _ _ => 0 }

/-- Collaborators whose allocator always answers NULL. -/
def kernel_no_memory : Kernel :=
  { kzalloc := fun _ _ => none,
    virt_to_phys := fun va => va - 0x40000000,
    scm_call := fun _ _ _ => 0 }

/-- A third region of 1 MiB. -/
def region_1M_c : scatterlist :=
  { page := 0x80200, dma_address := 0x80200000, dma_length := 0x100000 }

/-- A region of 2 GiB, a length with bit 31 set. -/
def region_2G : scatterlist :=
  { page := 0, dma_address := 0, dma_length := 0x80000000 }

/-- A region of length 0. -/
def region_zero : scatterlist :=
  { page := 0x80000, dma_address := 0x80000000, dma_length := 0 }

/-- A table of two entries of 1 MiB each. -/
def table_1M_1M : sg_table := { sgl := [region_1M_a, region_1M_b], nents := 2 }

/-- A table of three entries of 1 MiB each. -/
def table_1M_1M_1M : sg_table :=
  { sgl := [region_1M_a, region_1M_b, region_1M_c], nents := 3 }

/-- The table holding only `region_2G`. -/
def table_2G : sg_table := { sgl := [region_2G], nents := 1 }

/-! ## The loop body, case by case -/

theorem monitor_calls_append (a b : List Event) :
    monitor_calls (a ++ b) = monitor_calls a ++ monitor_calls b := by
  induction a with
  | nil => rfl
  | cons e es ih => cases e <;> simp [monitor_calls, ih]

theorem body_invalid (K : Kernel) (lock : Int) (sg : scatterlist) (i : Int) (w : World)
    (h : to_int (sg_dma_len sg) = 0 ∨ (to_int (sg_dma_len sg)).tmod V2_CHUNK_SIZE ≠ 0) :
    secure_buffer_change_sg K lock sg i w
      = Iter.returned (-EINVAL) (w.emit (Event.warn i (to_int (sg_dma_len sg)))) := by
  unfold secure_buffer_change_sg
  simp only []
  rw [if_pos h]

theorem body_nomem (K : Kernel) (lock : Int) (sg : scatterlist) (i : Int) (w : World)
    (h : ¬ (to_int (sg_dma_len sg) = 0 ∨ (to_int (sg_dma_len sg)).tmod V2_CHUNK_SIZE ≠ 0))
    (ha : K.kzalloc w.log (chunk_list_bytes sg) = none) :
    secure_buffer_change_sg K lock sg i w
      = Iter.returned (-ENOMEM) (w.emit (Event.kzalloc (chunk_list_bytes sg) none)) := by
  unfold secure_buffer_change_sg
  simp only []
  rw [if_neg h]
  unfold chunk_list_bytes at ha
  simp only [ha]
  rfl

theorem body_ok (K : Kernel) (lock : Int) (sg : scatterlist) (i : Int) (w : World) (va : Nat)
    (h : ¬ (to_int (sg_dma_len sg) = 0 ∨ (to_int (sg_dma_len sg)).tmod V2_CHUNK_SIZE ≠ 0))
    (ha : K.kzalloc w.log (chunk_list_bytes sg) = some va) :
    secure_buffer_change_sg K lock sg i w
      = Iter.next (filled_chunk_list sg).1 (issued_call K lock sg w.log va).ret
        { PagePrivate := fun p =>
            if (issued_call K lock sg w.log va).ret = 0 ∧ p = sg_page sg then decide (lock ≠ 0)
            else w.PagePrivate p,
          log := w.log ++ [Event.kzalloc (chunk_list_bytes sg) (some va),
            Event.dmac_flush_range va (flush_stop sg va),
            Event.scm_call (issued_call K lock sg w.log va), Event.kfree va] } := by
  unfold secure_buffer_change_sg
  simp only []
  rw [if_neg h]
  unfold chunk_list_bytes at ha
  simp only [ha]
  simp only [World.emit, SetPagePrivate, ClearPagePrivate, List.append_assoc,
    List.singleton_append, List.cons_append, List.nil_append, issued_call, filled_chunk_list,
    chunk_list_bytes, flush_stop]
  congr 1
  split
  · rename_i h0
    split
    · rename_i hl
      simp [h0, hl]
    · rename_i hl
      simp [h0, hl]
  · rename_i h0
    simp [h0]

theorem monitor_calls_body_ok (log : List Event) (n va stop : Nat) (c : MonitorCall) :
    monitor_calls (log ++ [Event.kzalloc n (some va), Event.dmac_flush_range va stop,
      Event.scm_call c, Event.kfree va]) = monitor_calls log ++ [c] := by
  rw [monitor_calls_append]
  rfl

/-- The three ways a pass through the loop body can end. -/
theorem body_shape (K : Kernel) (lock : Int) (sg : scatterlist) (i : Int) (w : World) :
    (∃ e, secure_buffer_change_sg K lock sg i w = Iter.returned (-EINVAL) (w.emit e)
        ∧ monitor_calls [e] = []) ∨
    (∃ e, secure_buffer_change_sg K lock sg i w = Iter.returned (-ENOMEM) (w.emit e)
        ∧ monitor_calls [e] = []) ∨
    (∃ (i1 : Int) (c : MonitorCall) (log1 : List Event), c.sg = sg ∧ monitor_calls log1 = monitor_calls w.log ++ [c] ∧
      secure_buffer_change_sg K lock sg i w = Iter.next i1 c.ret
        { PagePrivate := fun p =>
            if c.ret = 0 ∧ p = sg_page sg then decide (lock ≠ 0) else w.PagePrivate p,
          log := log1 }) := by
  by_cases h : to_int (sg_dma_len sg) = 0 ∨ (to_int (sg_dma_len sg)).tmod V2_CHUNK_SIZE ≠ 0
  · exact Or.inl ⟨_, body_invalid K lock sg i w h, rfl⟩
  · cases ha : K.kzalloc w.log (chunk_list_bytes sg) with
    | none => exact Or.inr (Or.inl ⟨_, body_nomem K lock sg i w h ha, rfl⟩)
    | some va =>
      exact Or.inr (Or.inr ⟨_, issued_call K lock sg w.log va, _, rfl,
        monitor_calls_body_ok w.log _ va _ _, body_ok K lock sg i w va h ha⟩)

/-- Induction over the region loop: a property of `ret` and the state that
every completed pass preserves holds when the loop ends, however it ends. -/
theorem for_each_sg_induction (K : Kernel) (nents : Nat) (lock : Int)
    (P : Int → World → Prop) (Q : Result → Prop)
    (hret : ∀ sg i ret w code w1, P ret w →
      secure_buffer_change_sg K lock sg i w = Iter.returned code w1 → Q (Result.ret code w1))
    (hnext : ∀ sg i ret w i1 ret1 w1, P ret w →
      secure_buffer_change_sg K lock sg i w = Iter.next i1 ret1 w1 → P ret1 w1)
    (hexit : ∀ ret w, P ret w → Q (Result.ret ret w))
    (hfault : ∀ ret w, P ret w → Q (Result.fault w)) :
    ∀ (sgs : List scatterlist) (i ret : Int) (w : World), P ret w →
      Q (for_each_sg K nents lock sgs i ret w) := by
  intro sgs
  induction sgs with
  | nil =>
    intro i ret w hP
    unfold for_each_sg
    split
    · exact hfault ret w hP
    · exact hexit ret w hP
  | cons sg rest ih =>
    intro i ret w hP
    unfold for_each_sg
    split
    · cases hb : secure_buffer_change_sg K lock sg i w with
      | returned code w1 => exact hret sg i ret w code w1 hP hb
      | next i1 ret1 w1 => exact ih _ ret1 w1 (hnext sg i ret w i1 ret1 w1 hP hb)
    · exact hexit ret w hP

/-- What holds of the state and of `ret` at every evaluation of the loop test:
every successful call so far has left the flag of the first page of its region
at the value asked for, no other flag has changed, and `ret` is the status of
the last call (or still `-EINVAL`). -/
theorem for_each_sg_summary (K : Kernel) (nents : Nat) (lock : Int) (flags : Nat → Bool)
    (sgs : List scatterlist) (i ret : Int) (w : World)
    (h1 : ∀ c ∈ monitor_calls w.log, c.ret = 0 →
      w.PagePrivate (sg_page c.sg) = decide (lock ≠ 0))
    (h2 : ∀ p, (∀ c ∈ monitor_calls w.log, c.ret = 0 → sg_page c.sg ≠ p) →
      w.PagePrivate p = flags p)
    (h3 : ret ≠ 0 ∨ ∃ c, (monitor_calls w.log).getLast? = some c ∧ c.ret = 0) :
    (∀ c ∈ monitor_calls (for_each_sg K nents lock sgs i ret w).world.log, c.ret = 0 →
      (for_each_sg K nents lock sgs i ret w).world.PagePrivate (sg_page c.sg)
        = decide (lock ≠ 0)) ∧
    (∀ p, (∀ c ∈ monitor_calls (for_each_sg K nents lock sgs i ret w).world.log, c.ret = 0 →
        sg_page c.sg ≠ p) →
      (for_each_sg K nents lock sgs i ret w).world.PagePrivate p = flags p) ∧
    ((for_each_sg K nents lock sgs i ret w).code = some 0 →
      ∃ c, (monitor_calls (for_each_sg K nents lock sgs i ret w).world.log).getLast? = some c
        ∧ c.ret = 0) := by
  refine for_each_sg_induction K nents lock
    (fun ret w =>
      (∀ c ∈ monitor_calls w.log, c.ret = 0 →
        w.PagePrivate (sg_page c.sg) = decide (lock ≠ 0)) ∧
      (∀ p, (∀ c ∈ monitor_calls w.log, c.ret = 0 → sg_page c.sg ≠ p) →
        w.PagePrivate p = flags p) ∧
      (ret ≠ 0 ∨ ∃ c, (monitor_calls w.log).getLast? = some c ∧ c.ret = 0))
    (fun r =>
      (∀ c ∈ monitor_calls r.world.log, c.ret = 0 →
        r.world.PagePrivate (sg_page c.sg) = decide (lock ≠ 0)) ∧
      (∀ p, (∀ c ∈ monitor_calls r.world.log, c.ret = 0 → sg_page c.sg ≠ p) →
        r.world.PagePrivate p = flags p) ∧
      (r.code = some 0 →
        ∃ c, (monitor_calls r.world.log).getLast? = some c ∧ c.ret = 0))
    ?_ ?_ ?_ ?_ sgs i ret w ⟨h1, h2, h3⟩
  · -- a pass that ends in a return statement
    intro sg i ret w code w1 hP hb
    have hcalls : monitor_calls w1.log = monitor_calls w.log ∧ w1.PagePrivate = w.PagePrivate
        ∧ code ≠ 0 := by
      rcases body_shape K lock sg i w with ⟨e, he, hm⟩ | ⟨e, he, hm⟩ | ⟨i1, c, log1, _, _, he⟩
      · rw [he] at hb
        injection hb with hc hw
        subst hc; subst hw
        refine ⟨?_, rfl, by decide⟩
        simp [World.emit, monitor_calls_append, hm]
      · rw [he] at hb
        injection hb with hc hw
        subst hc; subst hw
        refine ⟨?_, rfl, by decide⟩
        simp [World.emit, monitor_calls_append, hm]
      · rw [he] at hb
        cases hb
    obtain ⟨hl, hf, hc⟩ := hcalls
    refine ⟨?_, ?_, ?_⟩
    · simpa [Result.world, hl, hf] using hP.1
    · simpa [Result.world, hl, hf] using hP.2.1
    · intro h0
      simp [Result.code] at h0
      exact absurd h0 hc
  · -- a pass that reaches the end of the body
    intro sg i ret w i1 ret1 w1 hP hb
    rcases body_shape K lock sg i w with ⟨e, he, hm⟩ | ⟨e, he, hm⟩ | ⟨i2, c, log1, hsg, hlog, he⟩
    · rw [he] at hb
      cases hb
    · rw [he] at hb
      cases hb
    · rw [he] at hb
      injection hb with hi hr hw
      subst hi; subst hr; subst hw
      refine ⟨?_, ?_, ?_⟩
      · intro c1 hc1 hc10
        simp only [hlog, List.mem_append, List.mem_singleton] at hc1
        simp only []
        by_cases hcond : c.ret = 0 ∧ sg_page c1.sg = sg_page sg
        · rw [if_pos hcond]
        · rw [if_neg hcond]
          rcases hc1 with hold | hnew
          · exact hP.1 c1 hold hc10
          · subst hnew
            exact absurd ⟨hc10, by rw [hsg]⟩ hcond
      · intro p hp
        simp only [hlog, List.mem_append, List.mem_singleton] at hp
        simp only []
        by_cases hcond : c.ret = 0 ∧ p = sg_page sg
        · exact absurd (hsg ▸ hcond.2.symm) (hp c (Or.inr rfl) hcond.1)
        · rw [if_neg hcond]
          exact hP.2.1 p (fun c1 hc1 h0 => hp c1 (Or.inl hc1) h0)
      · by_cases h0 : c.ret = 0
        · right
          exact ⟨c, by simp [hlog], h0⟩
        · left
          exact h0
  · -- the loop test fails
    intro ret w hP
    refine ⟨hP.1, hP.2.1, ?_⟩
    intro h0
    simp [Result.code] at h0
    rcases hP.2.2 with hne | hex
    · exact absurd h0 hne
    · exact hex
  · -- the scatterlist pointer is NULL
    intro ret w hP
    refine ⟨hP.1, hP.2.1, ?_⟩
    intro h0
    simp [Result.code] at h0

/-! ## Machine arithmetic in range -/

theorem int_wrap_of_range (x : Int) (h0 : 0 ≤ x) (h1 : x < 2147483648) : int_wrap x = x := by
  unfold int_wrap to_int to_u32
  have hx : ((x % 4294967296).toNat % 4294967296 : Nat) = x.toNat := by omega
  rw [hx]
  have hlt : x.toNat < 2147483648 := by omega
  rw [if_pos hlt]
  omega

theorem to_u32_of_range (x : Int) (h0 : 0 ≤ x) (h1 : x < 4294967296) :
    to_u32 x = x.toNat := by
  unfold to_u32
  rw [Int.emod_eq_of_lt h0 h1]

theorem to_int_of_range (n : Nat) (h : n < 2147483648) : to_int n = n := by
  unfold to_int
  have hn : n % 4294967296 = n := by omega
  rw [hn, if_pos h]

theorem take_succ_set (l : List Nat) (k v : Nat) (h : k < l.length) :
    (l.set k v).take (k + 1) = l.take k ++ [v] := by
  rw [List.set_eq_take_append_cons_drop, if_pos h, List.take_append_eq_append_take]
  have hk : (List.take k l).length = k := by
    rw [List.length_take]
    omega
  rw [hk]
  have h1 : k + 1 - k = 1 := by omega
  rw [h1, List.take_of_length_le (by omega)]
  rfl

/-! ## The inner loop -/

/-- The inner loop, entered with `i = k` and `fuel = nchunks - k` passes left,
ends with `i = nchunks` and has written the words `k .. nchunks - 1`. -/
theorem fill_chunk_list_spec (base : Nat) (nchunks : Int) (hn : nchunks ≤ 2047) :
    ∀ (fuel k : Nat) (buf : List Nat), (k : Int) + fuel = nchunks → buf.length = k + fuel →
      fill_chunk_list base nchunks fuel k buf
        = (nchunks, buf.take k ++ (List.range' k fuel).map
            (fun (j : Nat) => to_u32 ((base : Int) + (j : Int) * 1048576))) := by
  intro fuel
  induction fuel with
  | zero =>
    intro k buf hk hlen
    simp only [fill_chunk_list]
    have hkn : (k : Int) = nchunks := by simpa using hk
    rw [List.take_of_length_le (by omega)]
    simp [hkn]
  | succ fuel ih =>
    intro k buf hk hlen
    have hlt : (k : Int) < nchunks := by omega
    simp only [fill_chunk_list]
    rw [if_pos hlt]
    have hw1 : int_wrap ((k : Int) + 1) = ((k + 1 : Nat) : Int) := by
      rw [int_wrap_of_range _ (by omega) (by omega)]
      push_cast
      rfl
    have hw2 : int_wrap ((k : Int) * V2_CHUNK_SIZE) = (k : Int) * 1048576 := by
      unfold V2_CHUNK_SIZE
      rw [int_wrap_of_range _ (by omega) (by omega)]
    rw [hw1, hw2, Int.toNat_ofNat]
    rw [ih (k + 1) _ (by push_cast; omega) (by rw [List.length_set]; omega)]
    rw [take_succ_set buf k _ (by omega), List.range'_succ]
    simp

/-- The bound on the passes of the inner loop is never what stops it: for
every chunk count an `int` can hold after the size check (at most 2047), the
loop ends at its own exit test. -/
theorem fill_chunk_list_reaches_exit (base : Nat) (nchunks : Int) (hn : nchunks ≤ 2047)
    (buf : List Nat) :
    ¬ (fill_chunk_list base nchunks nchunks.toNat 0 buf).1 < nchunks := by
  have hfst : ∀ (fuel k : Nat) (b : List Nat), (k : Int) + fuel = nchunks →
      (fill_chunk_list base nchunks fuel k b).1 = nchunks := by
    intro fuel
    induction fuel with
    | zero =>
      intro k b hk
      simp only [fill_chunk_list]
      simpa using hk
    | succ fuel ih =>
      intro k b hk
      have hlt : (k : Int) < nchunks := by omega
      simp only [fill_chunk_list]
      rw [if_pos hlt]
      have hw1 : int_wrap ((k : Int) + 1) = ((k + 1 : Nat) : Int) := by
        rw [int_wrap_of_range _ (by omega) (by omega)]
        push_cast
        rfl
      rw [hw1]
      exact ih (k + 1) _ (by push_cast; omega)
  by_cases hpos : 0 ≤ nchunks
  · have h := hfst nchunks.toNat 0 buf (by simp only [Nat.cast_zero]; omega)
    simp only [Nat.cast_zero] at h
    rw [h]
    omega
  · have h0 : nchunks.toNat = 0 := by omega
    rw [h0]
    simp only [fill_chunk_list]
    omega

/-! ## Regions of valid length -/

theorem invalid_size_of_not_multiple (sg : scatterlist) (h : sg_dma_len sg % 1048576 ≠ 0) :
    to_int (sg_dma_len sg) = 0 ∨ (to_int (sg_dma_len sg)).tmod V2_CHUNK_SIZE ≠ 0 := by
  right
  intro ht
  have hd : (1048576 : Int) ∣ to_int (sg_dma_len sg) := Int.dvd_of_tmod_eq_zero ht
  unfold to_int at hd
  split at hd <;> omega

theorem valid_size (sg : scatterlist) (hpos : 0 < sg_dma_len sg)
    (hmul : sg_dma_len sg % 1048576 = 0) (hlt : sg_dma_len sg < 2147483648) :
    ¬ (to_int (sg_dma_len sg) = 0 ∨ (to_int (sg_dma_len sg)).tmod V2_CHUNK_SIZE ≠ 0) ∧
    (to_int (sg_dma_len sg)).tdiv V2_CHUNK_SIZE = ((sg_dma_len sg / 1048576 : Nat) : Int) ∧
    chunk_list_bytes sg = 4 * (sg_dma_len sg / 1048576) := by
  have hi : to_int (sg_dma_len sg) = (sg_dma_len sg : Int) := to_int_of_range _ hlt
  have hd : (to_int (sg_dma_len sg)).tdiv V2_CHUNK_SIZE
      = ((sg_dma_len sg / 1048576 : Nat) : Int) := by
    rw [hi]
    unfold V2_CHUNK_SIZE
    rw [Int.tdiv_eq_ediv (by omega) (by omega)]
    omega
  refine ⟨?_, hd, ?_⟩
  · rw [hi]
    unfold V2_CHUNK_SIZE
    rw [Int.tmod_eq_emod (by omega) (by omega)]
    omega
  · unfold chunk_list_bytes
    rw [hd]
    unfold sizeof_unsigned_long
    have h4 : ((4 : Nat) : Int) * ((sg_dma_len sg / 1048576 : Nat) : Int)
        = ((4 * (sg_dma_len sg / 1048576) : Nat) : Int) := by push_cast; rfl
    have e1 : to_u32 ((4 * (sg_dma_len sg / 1048576) : Nat) : Int)
        = 4 * (sg_dma_len sg / 1048576) := by
      rw [to_u32_of_range _ (by omega) (by omega), Int.toNat_ofNat]
    have e2 : to_int (4 * (sg_dma_len sg / 1048576))
        = ((4 * (sg_dma_len sg / 1048576) : Nat) : Int) := to_int_of_range _ (by omega)
    rw [h4, e1, e2, e1]

/-- For a region of valid length the inner loop ends with `i` equal to the
chunk count and the buffer holds one address per chunk, in order. -/
theorem filled_chunk_list_valid (sg : scatterlist) (hpos : 0 < sg_dma_len sg)
    (hmul : sg_dma_len sg % 1048576 = 0) (hlt : sg_dma_len sg < 2147483648) :
    filled_chunk_list sg = (((sg_dma_len sg / 1048576 : Nat) : Int),
      (List.range (sg_dma_len sg / 1048576)).map
        (fun (j : Nat) => to_u32 ((to_u32 (sg_dma_address sg) : Int) + (j : Int) * 1048576))) := by
  obtain ⟨_, hd, hb⟩ := valid_size sg hpos hmul hlt
  unfold filled_chunk_list
  rw [hd, hb, Int.toNat_ofNat]
  have hq : 4 * (sg_dma_len sg / 1048576) / sizeof_unsigned_long = sg_dma_len sg / 1048576 := by
    unfold sizeof_unsigned_long
    omega
  rw [hq]
  have h := fill_chunk_list_spec (to_u32 (sg_dma_address sg))
    ((sg_dma_len sg / 1048576 : Nat) : Int) (by omega) (sg_dma_len sg / 1048576) 0
    (List.replicate (sg_dma_len sg / 1048576) 0) (by simp) (by simp)
  simp only [Nat.cast_zero] at h
  rw [h, List.take_zero, List.nil_append, List.range_eq_range']

/-- One pass of the region loop over a region of valid length whose chunk list
is allocated: the loop goes on with the next entry, `i` being the chunk count
plus one. -/
theorem for_each_sg_step (K : Kernel) (nents : Nat) (lock : Int) (sg : scatterlist)
    (rest : List scatterlist) (i ret : Int) (w : World) (va : Nat)
    (hi : to_u32 i < nents) (hpos : 0 < sg_dma_len sg)
    (hmul : sg_dma_len sg % 1048576 = 0) (hlt : sg_dma_len sg < 2147483648)
    (ha : K.kzalloc w.log (chunk_list_bytes sg) = some va) :
    for_each_sg K nents lock (sg :: rest) i ret w
      = for_each_sg K nents lock rest (((sg_dma_len sg / 1048576 + 1 : Nat) : Int))
          (issued_call K lock sg w.log va).ret
          { PagePrivate := fun p =>
              if (issued_call K lock sg w.log va).ret = 0 ∧ p = sg_page sg then decide (lock ≠ 0)
              else w.PagePrivate p,
            log := w.log ++ [Event.kzalloc (chunk_list_bytes sg) (some va),
              Event.dmac_flush_range va (flush_stop sg va),
              Event.scm_call (issued_call K lock sg w.log va), Event.kfree va] } := by
  obtain ⟨hv, _, _⟩ := valid_size sg hpos hmul hlt
  rw [for_each_sg, if_pos hi, body_ok K lock sg i w va hv ha]
  simp only []
  rw [filled_chunk_list_valid sg hpos hmul hlt]
  simp only []
  rw [int_wrap_of_range _ (by omega) (by omega)]
  push_cast
  rfl

/-! ## The two entry points -/

/-- Summary of an operation started with the page flags `flags`. -/
theorem locked_change_table_summary (K : Kernel) (table : sg_table) (lock : Int)
    (flags : Nat → Bool) :
    (∀ c ∈ monitor_calls (locked_change_table K table lock flags).world.log, c.ret = 0 →
      (locked_change_table K table lock flags).world.PagePrivate (sg_page c.sg)
        = decide (lock ≠ 0)) ∧
    (∀ p, (∀ c ∈ monitor_calls (locked_change_table K table lock flags).world.log, c.ret = 0 →
        sg_page c.sg ≠ p) →
      (locked_change_table K table lock flags).world.PagePrivate p = flags p) ∧
    ((locked_change_table K table lock flags).code = some 0 →
      ∃ c, (monitor_calls (locked_change_table K table lock flags).world.log).getLast? = some c
        ∧ c.ret = 0) := by
  have h := for_each_sg_summary K table.nents lock flags table.sgl 0 (-EINVAL)
    { PagePrivate := flags, log := [Event.mutex_lock] }
    (by intro c hc; simp [monitor_calls] at hc)
    (by intro p _; rfl)
    (Or.inl (by decide))
  unfold locked_change_table secure_buffer_change_table
  cases hr : for_each_sg K table.nents lock table.sgl 0 (-EINVAL)
      { PagePrivate := flags, log := [Event.mutex_lock] } with
  | ret code w1 =>
    rw [hr] at h
    simpa [Result.world, Result.code, World.emit, monitor_calls_append, monitor_calls] using h
  | fault w1 =>
    rw [hr] at h
    simpa [Result.world, Result.code] using h

theorem msm_ion_secure_table_eq (K : Kernel) (table : sg_table) (flags : Nat → Bool) :
    msm_ion_secure_table K table flags = locked_change_table K table 1 flags := rfl

theorem msm_ion_unsecure_table_eq (K : Kernel) (table : sg_table) (flags : Nat → Bool) :
    msm_ion_unsecure_table K table flags = locked_change_table K table 0 flags := rfl

/-! ## C1: the chunk table of a region -/

/-- C1.  For a region with base address `base` and length `len`, where `len`
is a positive multiple of 1 MiB below 2^31 and `base + len ≤ 2^32`, the pass of
the region loop of `secure_buffer_change_table` over that region (the one
allocation it makes, that of the chunk list, succeeding) issues one monitor call
whose chunk table is exactly
`[base + j * 2^20 | j = 0 .. len / 2^20 - 1]` in increasing order, with
`len / 2^20` entries, chunk count `len / 2^20` and chunk size `2^20`; and
`secure_buffer_change_table` applied to the list of that single region issues
exactly that call. -/
theorem chunk_table_of_region (K : Kernel) (lock : Int) (sg : scatterlist) (i : Int)
    (w : World) (base len : Nat)
    (hbase : sg_dma_address sg = base) (hlen : sg_dma_len sg = len)
    (hpos : 0 < len) (hmul : len % 1048576 = 0) (hlt : len < 2147483648)
    (hfit : base + len ≤ 4294967296)
    (halloc : (K.kzalloc w.log (chunk_list_bytes sg)).isSome = true) :
    ∃ (c : MonitorCall) (w1 : World),
      secure_buffer_change_sg K lock sg i w = Iter.next ((len / 1048576 : Nat) : Int) c.ret w1 ∧
      monitor_calls w1.log = monitor_calls w.log ++ [c] ∧
      monitor_calls (secure_buffer_change_table K { sgl := [sg], nents := 1 } lock w).world.log
        = monitor_calls w.log ++ [c] ∧
      c.sg = sg ∧
      c.chunk_list = (List.range (len / 1048576)).map (fun j => base + j * 1048576) ∧
      c.chunk_list.length = len / 1048576 ∧
      c.request.chunks.chunk_list_size = len / 1048576 ∧
      c.request.chunks.chunk_size = 1048576 := by
  subst hbase hlen
  obtain ⟨hv, hd, _⟩ := valid_size sg hpos hmul hlt
  obtain ⟨va, hva⟩ := Option.isSome_iff_exists.mp halloc
  have hfill := filled_chunk_list_valid sg hpos hmul hlt
  have hbase32 : to_u32 (sg_dma_address sg : Int) = sg_dma_address sg := by
    rw [to_u32_of_range _ (by omega) (by omega), Int.toNat_ofNat]
  have hlist : (filled_chunk_list sg).2
      = (List.range (sg_dma_len sg / 1048576)).map (fun j => sg_dma_address sg + j * 1048576) := by
    rw [hfill]
    apply List.map_congr_left
    intro j hj
    rw [List.mem_range] at hj
    rw [hbase32]
    have hcast : (sg_dma_address sg : Int) + (j : Int) * 1048576
        = ((sg_dma_address sg + j * 1048576 : Nat) : Int) := by push_cast; rfl
    rw [hcast, to_u32_of_range _ (by omega) (by omega), Int.toNat_ofNat]
  refine ⟨issued_call K lock sg w.log va,
    { PagePrivate := fun p =>
        if (issued_call K lock sg w.log va).ret = 0 ∧ p = sg_page sg then decide (lock ≠ 0)
        else w.PagePrivate p,
      log := w.log ++ [Event.kzalloc (chunk_list_bytes sg) (some va),
        Event.dmac_flush_range va (flush_stop sg va),
        Event.scm_call (issued_call K lock sg w.log va), Event.kfree va] },
    ?_, ?_, ?_, rfl, hlist, ?_, ?_, ?_⟩
  · rw [body_ok K lock sg i w va hv hva, hfill]
  · exact monitor_calls_body_ok w.log _ va _ _
  · unfold secure_buffer_change_table
    simp only []
    rw [for_each_sg_step K 1 lock sg [] 0 (-EINVAL) w va (by decide) hpos hmul hlt hva,
      for_each_sg]
    have hexit : ¬ to_u32 ((sg_dma_len sg / 1048576 + 1 : Nat) : Int) < 1 := by
      rw [to_u32_of_range _ (by omega) (by omega), Int.toNat_ofNat]
      omega
    rw [if_neg hexit]
    exact monitor_calls_body_ok w.log _ va _ _
  · show (filled_chunk_list sg).2.length = _
    rw [hlist]
    simp
  · show to_u32 ((to_int (sg_dma_len sg)).tdiv V2_CHUNK_SIZE) = _
    rw [hd, to_u32_of_range _ (by omega) (by omega), Int.toNat_ofNat]
  · show to_u32 V2_CHUNK_SIZE = _
    decide

/-- C1, at the example of the specification: base `0x80000000`, length 3 MiB,
with an allocator that grants at most 4 MiB. -/
theorem chunk_table_of_region_witness :
    (sg_dma_address region_3M = 0x80000000 ∧ sg_dma_len region_3M = 0x300000 ∧
      0 < 0x300000 ∧ 0x300000 % 1048576 = 0 ∧ 0x300000 < 2147483648 ∧
      0x80000000 + 0x300000 ≤ 4294967296 ∧
      (kernel_bounded.kzalloc world_zero.log (chunk_list_bytes region_3M)).isSome = true) ∧
    (∃ (c : MonitorCall) (w1 : World),
      secure_buffer_change_sg kernel_bounded 1 region_3M 0 world_zero
        = Iter.next ((0x300000 / 1048576 : Nat) : Int) c.ret w1 ∧
      monitor_calls w1.log = monitor_calls world_zero.log ++ [c] ∧
      monitor_calls (secure_buffer_change_table kernel_bounded { sgl := [region_3M], nents := 1 } 1
        world_zero).world.log = monitor_calls world_zero.log ++ [c] ∧
      c.sg = region_3M ∧
      c.chunk_list = (List.range (0x300000 / 1048576)).map (fun j => 0x80000000 + j * 1048576) ∧
      c.chunk_list.length = 0x300000 / 1048576 ∧
      c.request.chunks.chunk_list_size = 0x300000 / 1048576 ∧
      c.request.chunks.chunk_size = 1048576) ∧
    (List.range (0x300000 / 1048576)).map (fun j => 0x80000000 + j * 1048576)
      = [0x80000000, 0x80100000, 0x80200000] ∧
    (monitor_calls (secure_buffer_change_table kernel_bounded table_3M 1 world_zero).world.log).map
      (fun c => (c.chunk_list, c.request.chunks.chunk_list_size, c.request.chunks.chunk_size))
      = [([0x80000000, 0x80100000, 0x80200000], 3, 0x100000)] :=
  ⟨by decide,
    chunk_table_of_region kernel_bounded 1 region_3M 0 world_zero 0x80000000 0x300000 rfl rfl
      (by decide) (by decide) (by decide) (by decide) (by decide),
    by decide, by decide⟩

/-! ## C2: page flags after a successful operation -/

/-- C2 as stated fails.  Securing the single region `region_3M` (3 MiB, every
allocation and the monitor call succeeding) returns 0 and leaves the second
page of the region unflagged.  Securing `table_1M_1M_2M` while the monitor
rejects the first call returns 0, all three regions having been submitted, and
leaves the first page of the first region unflagged. -/
theorem secure_success_leaves_pages_unflagged :
    ((msm_ion_secure_table kernel_ok table_3M no_flags).code = some 0 ∧
      page_in_region region_3M 0x80001 ∧
      (msm_ion_secure_table kernel_ok table_3M no_flags).world.PagePrivate 0x80001 = false) ∧
    ((msm_ion_secure_table kernel_first_call_fails table_1M_1M_2M no_flags).code = some 0 ∧
      (monitor_calls (msm_ion_secure_table kernel_first_call_fails table_1M_1M_2M
          no_flags).world.log).map (fun c => c.sg) = table_1M_1M_2M.sgl ∧
      page_in_region region_1M_a (sg_page region_1M_a) ∧
      (msm_ion_secure_table kernel_first_call_fails table_1M_1M_2M no_flags).world.PagePrivate
        (sg_page region_1M_a) = false) := by
  unfold page_in_region
  decide

/-- C2, amended.  If `msm_ion_secure_table` returns 0 then a monitor call was
issued, the call issued last returned 0, and afterwards the first page
(`sg_page`) of every region whose monitor call was issued and returned 0 has
`PagePrivate` set; if `msm_ion_unsecure_table` returns 0 the same holds with
`PagePrivate` clear. -/
theorem success_flags_first_pages (K : Kernel) (table : sg_table) (flags : Nat → Bool) :
    ((msm_ion_secure_table K table flags).code = some 0 →
      (∃ c, (monitor_calls (msm_ion_secure_table K table flags).world.log).getLast? = some c
        ∧ c.ret = 0 ∧ (msm_ion_secure_table K table flags).world.PagePrivate (sg_page c.sg) = true) ∧
      ∀ c ∈ monitor_calls (msm_ion_secure_table K table flags).world.log, c.ret = 0 →
        (msm_ion_secure_table K table flags).world.PagePrivate (sg_page c.sg) = true) ∧
    ((msm_ion_unsecure_table K table flags).code = some 0 →
      (∃ c, (monitor_calls (msm_ion_unsecure_table K table flags).world.log).getLast? = some c
        ∧ c.ret = 0 ∧ (msm_ion_unsecure_table K table flags).world.PagePrivate (sg_page c.sg) = false) ∧
      ∀ c ∈ monitor_calls (msm_ion_unsecure_table K table flags).world.log, c.ret = 0 →
        (msm_ion_unsecure_table K table flags).world.PagePrivate (sg_page c.sg) = false) := by
  constructor
  · intro h0
    obtain ⟨h1, _, h3⟩ := locked_change_table_summary K table 1 flags
    have h1t : ∀ c ∈ monitor_calls (msm_ion_secure_table K table flags).world.log, c.ret = 0 →
        (msm_ion_secure_table K table flags).world.PagePrivate (sg_page c.sg) = true := by
      intro c hc hz
      have := h1 c hc hz
      simpa using this
    obtain ⟨c, hc, hz⟩ := h3 h0
    exact ⟨⟨c, hc, hz, h1t c (List.mem_of_getLast?_eq_some hc) hz⟩, h1t⟩
  · intro h0
    obtain ⟨h1, _, h3⟩ := locked_change_table_summary K table 0 flags
    have h1f : ∀ c ∈ monitor_calls (msm_ion_unsecure_table K table flags).world.log, c.ret = 0 →
        (msm_ion_unsecure_table K table flags).world.PagePrivate (sg_page c.sg) = false := by
      intro c hc hz
      have := h1 c hc hz
      simpa using this
    obtain ⟨c, hc, hz⟩ := h3 h0
    exact ⟨⟨c, hc, hz, h1f c (List.mem_of_getLast?_eq_some hc) hz⟩, h1f⟩

/-- C2, amended, at the single region `region_3M`: both operations return 0
and the first page of the region is flagged, respectively unflagged. -/
theorem success_flags_first_pages_witness :
    ((msm_ion_secure_table kernel_ok table_3M no_flags).code = some 0 ∧
      (msm_ion_unsecure_table kernel_ok table_3M all_flags).code = some 0) ∧
    ((∃ c, (monitor_calls (msm_ion_secure_table kernel_ok table_3M no_flags).world.log).getLast?
          = some c
        ∧ c.ret = 0
        ∧ (msm_ion_secure_table kernel_ok table_3M no_flags).world.PagePrivate (sg_page c.sg)
          = true) ∧
      ∀ c ∈ monitor_calls (msm_ion_secure_table kernel_ok table_3M no_flags).world.log,
        c.ret = 0 →
        (msm_ion_secure_table kernel_ok table_3M no_flags).world.PagePrivate (sg_page c.sg)
          = true) ∧
    ((∃ c, (monitor_calls (msm_ion_unsecure_table kernel_ok table_3M all_flags).world.log).getLast?
          = some c
        ∧ c.ret = 0
        ∧ (msm_ion_unsecure_table kernel_ok table_3M all_flags).world.PagePrivate (sg_page c.sg)
          = false) ∧
      ∀ c ∈ monitor_calls (msm_ion_unsecure_table kernel_ok table_3M all_flags).world.log,
        c.ret = 0 →
        (msm_ion_unsecure_table kernel_ok table_3M all_flags).world.PagePrivate (sg_page c.sg)
          = false) :=
  ⟨⟨by decide, by decide⟩,
    (success_flags_first_pages kernel_ok table_3M no_flags).1 (by decide),
    (success_flags_first_pages kernel_ok table_3M all_flags).2 (by decide)⟩

/-! ## C3: the status returned by an operation -/

/-- C3 as stated fails.  On `table_1M_1M_2M`, with a monitor that rejects the
first call with status `-5`, every region is submitted, the call for the first
region fails, and both operations return 0. -/
theorem success_despite_failed_call :
    ((msm_ion_secure_table kernel_first_call_fails table_1M_1M_2M no_flags).code = some 0 ∧
      (monitor_calls (msm_ion_secure_table kernel_first_call_fails table_1M_1M_2M
          no_flags).world.log).map (fun c => (c.sg, c.ret))
        = [(region_1M_a, -5), (region_1M_b, 0), (region_2M, 0)]) ∧
    ((msm_ion_unsecure_table kernel_first_call_fails table_1M_1M_2M all_flags).code = some 0 ∧
      (monitor_calls (msm_ion_unsecure_table kernel_first_call_fails table_1M_1M_2M
          all_flags).world.log).map (fun c => (c.sg, c.ret))
        = [(region_1M_a, -5), (region_1M_b, 0), (region_2M, 0)]) := by
  decide

/-- C3, amended.  `msm_ion_secure_table` and `msm_ion_unsecure_table` return 0
only if at least one region was submitted to the monitor and the monitor call
issued last returned 0. -/
theorem success_only_if_last_call_succeeded (K : Kernel) (table : sg_table)
    (flags : Nat → Bool) :
    ((msm_ion_secure_table K table flags).code = some 0 →
      ∃ c, (monitor_calls (msm_ion_secure_table K table flags).world.log).getLast? = some c
        ∧ c.ret = 0) ∧
    ((msm_ion_unsecure_table K table flags).code = some 0 →
      ∃ c, (monitor_calls (msm_ion_unsecure_table K table flags).world.log).getLast? = some c
        ∧ c.ret = 0) :=
  ⟨(locked_change_table_summary K table 1 flags).2.2,
    (locked_change_table_summary K table 0 flags).2.2⟩

/-- C3, amended, at `table_1M_1M_2M` with the monitor rejecting the first
call: both operations return 0 and the last call issued returned 0. -/
theorem success_only_if_last_call_succeeded_witness :
    ((msm_ion_secure_table kernel_first_call_fails table_1M_1M_2M no_flags).code = some 0 ∧
      (msm_ion_unsecure_table kernel_first_call_fails table_1M_1M_2M no_flags).code = some 0) ∧
    (∃ c, (monitor_calls (msm_ion_secure_table kernel_first_call_fails table_1M_1M_2M
          no_flags).world.log).getLast? = some c ∧ c.ret = 0) ∧
    (∃ c, (monitor_calls (msm_ion_unsecure_table kernel_first_call_fails table_1M_1M_2M
          no_flags).world.log).getLast? = some c ∧ c.ret = 0) :=
  ⟨⟨by decide, by decide⟩,
    (success_only_if_last_call_succeeded kernel_first_call_fails table_1M_1M_2M no_flags).1
      (by decide),
    (success_only_if_last_call_succeeded kernel_first_call_fails table_1M_1M_2M no_flags).2
      (by decide)⟩

/-! ## C4: a first region of invalid length -/

/-- C4.  When the length of the first region of the list is not a multiple of
1 MiB, `msm_ion_secure_table` and `msm_ion_unsecure_table` return `-EINVAL`,
issue no monitor call and leave every page flag as it was. -/
theorem invalid_first_region_rejected (K : Kernel) (sg : scatterlist)
    (rest : List scatterlist) (nents : Nat) (flags : Nat → Bool)
    (h : sg_dma_len sg % 1048576 ≠ 0) :
    ((msm_ion_secure_table K { sgl := sg :: rest, nents := nents } flags).code = some (-EINVAL) ∧
      monitor_calls (msm_ion_secure_table K { sgl := sg :: rest, nents := nents }
        flags).world.log = [] ∧
      (msm_ion_secure_table K { sgl := sg :: rest, nents := nents } flags).world.PagePrivate
        = flags) ∧
    ((msm_ion_unsecure_table K { sgl := sg :: rest, nents := nents } flags).code
        = some (-EINVAL) ∧
      monitor_calls (msm_ion_unsecure_table K { sgl := sg :: rest, nents := nents }
        flags).world.log = [] ∧
      (msm_ion_unsecure_table K { sgl := sg :: rest, nents := nents } flags).world.PagePrivate
        = flags) := by
  have hinv := invalid_size_of_not_multiple sg h
  have key : ∀ lock : Int,
      (locked_change_table K { sgl := sg :: rest, nents := nents } lock flags).code
        = some (-EINVAL) ∧
      monitor_calls (locked_change_table K { sgl := sg :: rest, nents := nents } lock
        flags).world.log = [] ∧
      (locked_change_table K { sgl := sg :: rest, nents := nents } lock flags).world.PagePrivate
        = flags := by
    intro lock
    unfold locked_change_table secure_buffer_change_table
    simp only []
    rw [for_each_sg]
    by_cases hn : to_u32 0 < nents
    · rw [if_pos hn, body_invalid K lock sg 0 _ hinv]
      simp [Result.code, Result.world, World.emit, monitor_calls]
    · rw [if_neg hn]
      simp [Result.code, Result.world, World.emit, monitor_calls]
  exact ⟨key 1, key 0⟩

/-- C4 at the table holding only `region_half` (half a MiB). -/
theorem invalid_first_region_rejected_witness :
    sg_dma_len region_half % 1048576 ≠ 0 ∧
    ((msm_ion_secure_table kernel_ok { sgl := region_half :: [], nents := 1 } no_flags).code
        = some (-EINVAL) ∧
      monitor_calls (msm_ion_secure_table kernel_ok { sgl := region_half :: [], nents := 1 }
        no_flags).world.log = [] ∧
      (msm_ion_secure_table kernel_ok { sgl := region_half :: [], nents := 1 }
        no_flags).world.PagePrivate = no_flags) ∧
    ((msm_ion_unsecure_table kernel_ok { sgl := region_half :: [], nents := 1 } no_flags).code
        = some (-EINVAL) ∧
      monitor_calls (msm_ion_unsecure_table kernel_ok { sgl := region_half :: [], nents := 1 }
        no_flags).world.log = [] ∧
      (msm_ion_unsecure_table kernel_ok { sgl := region_half :: [], nents := 1 }
        no_flags).world.PagePrivate = no_flags) :=
  ⟨by decide, invalid_first_region_rejected kernel_ok region_half [] 1 no_flags (by decide)⟩

/-! ## C5: a later region of invalid length -/

/-- C5 fails on the code.  In `table_1M_half` the second region is the first
one of invalid length and everything succeeds for the first region; the loop
ends after the first region, so both operations return 0 instead of `-EINVAL`
and the second region is never examined (no warning is logged). -/
theorem later_invalid_region_not_rejected :
    (sg_dma_len region_1M_a % 1048576 = 0 ∧ sg_dma_len region_half % 1048576 ≠ 0) ∧
    ((msm_ion_secure_table kernel_ok table_1M_half no_flags).code = some 0 ∧
      (msm_ion_secure_table kernel_ok table_1M_half no_flags).code ≠ some (-EINVAL) ∧
      (monitor_calls (msm_ion_secure_table kernel_ok table_1M_half no_flags).world.log).map
        (fun c => c.sg) = [region_1M_a] ∧
      ∀ i size, Event.warn i size ∉
        (msm_ion_secure_table kernel_ok table_1M_half no_flags).world.log) ∧
    ((msm_ion_unsecure_table kernel_ok table_1M_half no_flags).code = some 0 ∧
      (msm_ion_unsecure_table kernel_ok table_1M_half no_flags).code ≠ some (-EINVAL) ∧
      (monitor_calls (msm_ion_unsecure_table kernel_ok table_1M_half no_flags).world.log).map
        (fun c => c.sg) = [region_1M_a] ∧
      ∀ i size, Event.warn i size ∉
        (msm_ion_unsecure_table kernel_ok table_1M_half no_flags).world.log) := by
  refine ⟨by decide, ⟨by decide, by decide, by decide, ?_⟩, ⟨by decide, by decide, by decide, ?_⟩⟩
  · intro i size hmem
    have hlog : (msm_ion_secure_table kernel_ok table_1M_half no_flags).world.log
        = [Event.mutex_lock, Event.kzalloc 4 (some 0xC1000000),
            Event.dmac_flush_range 0xC1000000 0xC1000010,
            Event.scm_call (issued_call kernel_ok 1 region_1M_a [Event.mutex_lock] 0xC1000000),
            Event.kfree 0xC1000000, Event.mutex_unlock] := by decide
    rw [hlog] at hmem
    simp at hmem
  · intro i size hmem
    have hlog : (msm_ion_unsecure_table kernel_ok table_1M_half no_flags).world.log
        = [Event.mutex_lock, Event.kzalloc 4 (some 0xC1000000),
            Event.dmac_flush_range 0xC1000000 0xC1000010,
            Event.scm_call (issued_call kernel_ok 0 region_1M_a [Event.mutex_lock] 0xC1000000),
            Event.kfree 0xC1000000, Event.mutex_unlock] := by decide
    rw [hlog] at hmem
    simp at hmem

/-! ## C6: page flags after a failed monitor call -/

/-- C7.  For a list of one region whose length is a positive multiple of 1 MiB
below 2^31, the allocation of its chunk list succeeding, `msm_ion_secure_table`
and `msm_ion_unsecure_table` issue exactly one monitor call and return exactly
the status of that call. -/
theorem single_region_returns_monitor_status (K : Kernel) (sg : scatterlist)
    (flags : Nat → Bool)
    (hpos : 0 < sg_dma_len sg) (hmul : sg_dma_len sg % 1048576 = 0)
    (hlt : sg_dma_len sg < 2147483648)
    (halloc : (K.kzalloc [Event.mutex_lock] (chunk_list_bytes sg)).isSome = true) :
    (∃ c, monitor_calls (msm_ion_secure_table K { sgl := [sg], nents := 1 } flags).world.log
          = [c] ∧ c.sg = sg ∧ (∃ log, c.ret = K.scm_call log c.request c.chunk_list) ∧
        (msm_ion_secure_table K { sgl := [sg], nents := 1 } flags).code = some c.ret) ∧
    (∃ c, monitor_calls (msm_ion_unsecure_table K { sgl := [sg], nents := 1 } flags).world.log
          = [c] ∧ c.sg = sg ∧ (∃ log, c.ret = K.scm_call log c.request c.chunk_list) ∧
        (msm_ion_unsecure_table K { sgl := [sg], nents := 1 } flags).code = some c.ret) := by
  have key : ∀ lock : Int,
      ∃ c, monitor_calls (locked_change_table K { sgl := [sg], nents := 1 } lock flags).world.log
          = [c] ∧ c.sg = sg ∧ (∃ log, c.ret = K.scm_call log c.request c.chunk_list) ∧
        (locked_change_table K { sgl := [sg], nents := 1 } lock flags).code = some c.ret := by
    intro lock
    obtain ⟨va, hva⟩ := Option.isSome_iff_exists.mp halloc
    refine ⟨issued_call K lock sg [Event.mutex_lock] va, ?_, rfl, ⟨_, rfl⟩, ?_⟩ <;>
    unfold locked_change_table secure_buffer_change_table <;>
    simp only [] <;>
    rw [for_each_sg_step K 1 lock sg [] 0 (-EINVAL) _ va (by decide) hpos hmul hlt hva] <;>
    rw [for_each_sg] <;>
    rw [if_neg (show ¬ to_u32 ((sg_dma_len sg / 1048576 + 1 : Nat) : Int) < 1 by
      rw [to_u32_of_range _ (by omega) (by omega), Int.toNat_ofNat]
      omega)] <;>
    simp [Result.code, Result.world, World.emit, monitor_calls_append, monitor_calls]
  exact ⟨key 1, key 0⟩

/-- C7 at the single region `region_3M`, with an allocator that grants at most
4 MiB and a monitor answering 0. -/
theorem single_region_returns_monitor_status_witness :
    (0 < sg_dma_len region_3M ∧ sg_dma_len region_3M % 1048576 = 0 ∧
      sg_dma_len region_3M < 2147483648 ∧
      (kernel_bounded.kzalloc [Event.mutex_lock] (chunk_list_bytes region_3M)).isSome = true) ∧
    (∃ c, monitor_calls (msm_ion_secure_table kernel_bounded { sgl := [region_3M], nents := 1 }
          no_flags).world.log = [c] ∧ c.sg = region_3M ∧
        (∃ log, c.ret = kernel_bounded.scm_call log c.request c.chunk_list) ∧
        (msm_ion_secure_table kernel_bounded { sgl := [region_3M], nents := 1 } no_flags).code
          = some c.ret) ∧
    (∃ c, monitor_calls (msm_ion_unsecure_table kernel_bounded { sgl := [region_3M], nents := 1 }
          no_flags).world.log = [c] ∧ c.sg = region_3M ∧
        (∃ log, c.ret = kernel_bounded.scm_call log c.request c.chunk_list) ∧
        (msm_ion_unsecure_table kernel_bounded { sgl := [region_3M], nents := 1 } no_flags).code
          = some c.ret) :=
  ⟨by decide,
    single_region_returns_monitor_status kernel_bounded region_3M no_flags (by decide)
      (by decide) (by decide) (by decide)⟩

/-! ## C8: flags follow successful monitor calls only -/

/-- C8.  In one pass through the loop body: a pass that leaves by `return`
(with `-EINVAL` or `-ENOMEM`) issues no monitor call and changes no page flag;
a pass that reaches the end of the body has issued exactly one monitor call,
whose status is the new `ret`, and if that status is not 0 no page flag has
changed; a flag that has changed belongs to the first page of the region, the
status was 0, and the flag is set when the call was a lock call (`lock ≠ 0`)
and clear when it was an unlock call (`lock = 0`). -/
theorem flags_change_only_after_success (K : Kernel) (lock : Int) (sg : scatterlist) (i : Int)
    (w : World) :
    (∀ code w1, secure_buffer_change_sg K lock sg i w = Iter.returned code w1 →
      (code = -EINVAL ∨ code = -ENOMEM) ∧ monitor_calls w1.log = monitor_calls w.log ∧
      w1.PagePrivate = w.PagePrivate) ∧
    (∀ i1 ret w1, secure_buffer_change_sg K lock sg i w = Iter.next i1 ret w1 →
      ∃ c, monitor_calls w1.log = monitor_calls w.log ++ [c] ∧ c.ret = ret ∧ c.sg = sg ∧
        c.request.lock = to_u32 lock ∧
        (ret ≠ 0 → w1.PagePrivate = w.PagePrivate) ∧
        (∀ p, w1.PagePrivate p ≠ w.PagePrivate p →
          ret = 0 ∧ p = sg_page sg ∧ w1.PagePrivate p = decide (lock ≠ 0))) := by
  by_cases h : to_int (sg_dma_len sg) = 0 ∨ (to_int (sg_dma_len sg)).tmod V2_CHUNK_SIZE ≠ 0
  · rw [body_invalid K lock sg i w h]
    constructor
    · intro code w1 he
      injection he with hc hw
      subst hc; subst hw
      exact ⟨Or.inl rfl, by simp [World.emit, monitor_calls_append, monitor_calls], rfl⟩
    · intro i1 ret w1 he
      cases he
  · cases ha : K.kzalloc w.log (chunk_list_bytes sg) with
    | none =>
      rw [body_nomem K lock sg i w h ha]
      constructor
      · intro code w1 he
        injection he with hc hw
        subst hc; subst hw
        exact ⟨Or.inr rfl, by simp [World.emit, monitor_calls_append, monitor_calls], rfl⟩
      · intro i1 ret w1 he
        cases he
    | some va =>
      rw [body_ok K lock sg i w va h ha]
      constructor
      · intro code w1 he
        cases he
      · intro i1 ret w1 he
        injection he with hi hr hw
        subst hi; subst hr; subst hw
        refine ⟨issued_call K lock sg w.log va, monitor_calls_body_ok w.log _ va _ _, rfl, rfl,
          rfl, ?_, ?_⟩
        · intro hne
          funext p
          simp [hne]
        · intro p hp
          by_cases hcond : (issued_call K lock sg w.log va).ret = 0 ∧ p = sg_page sg
          · refine ⟨hcond.1, hcond.2, ?_⟩
            simp only []
            rw [if_pos hcond]
          · exfalso
            apply hp
            simp only []
            rw [if_neg hcond]

/-- C8 at three passes: over `region_half` (early return), over `region_1M_a`
with a monitor that rejects the call, and over `region_1M_a` with a monitor
that accepts it. -/
theorem flags_change_only_after_success_witness :
    ((-EINVAL = -EINVAL ∨ -EINVAL = -ENOMEM) ∧
      monitor_calls (secure_buffer_change_sg kernel_ok 1 region_half 0 world_zero).world.log
        = monitor_calls world_zero.log ∧
      (secure_buffer_change_sg kernel_ok 1 region_half 0 world_zero).world.PagePrivate
        = world_zero.PagePrivate) ∧
    (∃ c, monitor_calls
          (secure_buffer_change_sg kernel_first_call_fails 1 region_1M_a 0 world_zero).world.log
          = monitor_calls world_zero.log ++ [c] ∧ c.ret = -5 ∧ c.sg = region_1M_a ∧
        c.request.lock = to_u32 1 ∧
        (-5 ≠ (0 : Int) →
          (secure_buffer_change_sg kernel_first_call_fails 1 region_1M_a 0
            world_zero).world.PagePrivate = world_zero.PagePrivate) ∧
        (∀ p, (secure_buffer_change_sg kernel_first_call_fails 1 region_1M_a 0
              world_zero).world.PagePrivate p ≠ world_zero.PagePrivate p →
          -5 = (0 : Int) ∧ p = sg_page region_1M_a ∧
          (secure_buffer_change_sg kernel_first_call_fails 1 region_1M_a 0
            world_zero).world.PagePrivate p = decide ((1 : Int) ≠ 0))) ∧
    (secure_buffer_change_sg kernel_ok 1 region_1M_a 0 world_zero).world.PagePrivate
        (sg_page region_1M_a) = true :=
  ⟨(flags_change_only_after_success kernel_ok 1 region_half 0 world_zero).1 (-EINVAL)
      (secure_buffer_change_sg kernel_ok 1 region_half 0 world_zero).world rfl,
    (flags_change_only_after_success kernel_first_call_fails 1 region_1M_a 0 world_zero).2 1 (-5)
      (secure_buffer_change_sg kernel_first_call_fails 1 region_1M_a 0 world_zero).world rfl,
    by decide⟩

/-! ## C9 and C10: the version test -/

theorem make_cp_version_1_1_0 : MAKE_CP_VERSION 1 1 0 = 0x00401000 := by decide

/-- The three fields of an encoded version do not overlap. -/
theorem encoded_version_eq (major minor patch : Nat) (hminor : minor < 1024)
    (hpatch : patch < 4096) :
    encoded_version major minor patch = major * 4194304 + minor * 4096 + patch := by
  unfold encoded_version
  rw [Nat.shiftLeft_eq, Nat.shiftLeft_eq]
  have h1 : major * 2 ^ 22 ||| minor * 2 ^ 12 = major * 2 ^ 22 + minor * 2 ^ 12 := by
    have h := Nat.mul_add_lt_is_or (i := 22) (b := minor * 2 ^ 12) (by omega) major
    rw [Nat.mul_comm (2 ^ 22) major] at h
    exact h.symm
  have h2 : major * 2 ^ 22 + minor * 2 ^ 12 = 2 ^ 12 * (major * 2 ^ 10 + minor) := by ring
  rw [h1, h2, ← Nat.mul_add_lt_is_or (i := 12) (by omega)]
  ring

/-- The version test on a reported value below 2^31 is the comparison with
`0x00401000`; on a reported value with bit 31 set it fails. -/
theorem supported_iff (f : Nat → Nat) (h32 : f FEATURE_ID_CP < 4294967296) :
    msm_secure_v2_is_supported f = true
      ↔ 0x00401000 ≤ f FEATURE_ID_CP ∧ f FEATURE_ID_CP < 2147483648 := by
  unfold msm_secure_v2_is_supported
  simp only [make_cp_version_1_1_0, decide_eq_true_eq, ge_iff_le]
  unfold to_int
  split <;> omega

/-- For a major number below 512 the version test is the lexicographic
comparison with 1.1.0. -/
theorem supported_iff_version_ge (major minor patch : Nat) (hmajor : major < 512)
    (hminor : minor < 1024) (hpatch : patch < 4096) :
    msm_secure_v2_is_supported (fun _ => encoded_version major minor patch) = true
      ↔ version_ge (major, minor, patch) (1, 1, 0) := by
  rw [supported_iff _ (by rw [encoded_version_eq major minor patch hminor hpatch]; omega)]
  rw [encoded_version_eq major minor patch hminor hpatch]
  unfold version_ge
  simp only []
  omega

/-- For a major number from 512 on the version test fails. -/
theorem unsupported_of_major_ge_512 (major minor patch : Nat) (hmajor : 512 ≤ major)
    (hmajor1 : major < 1024) (hminor : minor < 1024) (hpatch : patch < 4096) :
    msm_secure_v2_is_supported (fun _ => encoded_version major minor patch) = false := by
  have he := encoded_version_eq major minor patch hminor hpatch
  have h := supported_iff (fun _ => encoded_version major minor patch)
    (by simp only []; omega)
  simp only [] at h
  cases hs : msm_secure_v2_is_supported (fun _ => encoded_version major minor patch) with
  | false => rfl
  | true =>
    have := h.mp hs
    omega

/-- C9 fails on the code.  The version 512.0.0 has its fields within bounds
and is at least 1.1.0, its encoding is `0x80000000`, which read as an `int` is
negative, and `msm_secure_v2_is_supported` returns false for it. -/
theorem version_512_0_0_unsupported :
    (512 < 1024 ∧ 0 < 1024 ∧ 0 < 4096) ∧
    encoded_version 512 0 0 = 0x80000000 ∧
    to_int (encoded_version 512 0 0) = -2147483648 ∧
    version_ge (512, 0, 0) (1, 1, 0) ∧
    msm_secure_v2_is_supported (fun _ => encoded_version 512 0 0) = false := by
  unfold version_ge
  decide

/-- C10.  `MAKE_CP_VERSION(1,1,0)` is `0x00401000`;
`msm_secure_v2_is_supported` returns true when that value is reported, false
when `MAKE_CP_VERSION(1,0,999)` or `MAKE_CP_VERSION(0,9,0)` is reported, and
whenever it returns true for a reported non-negative 32-bit value, that value
is at least `MAKE_CP_VERSION(1,1,0)`. -/
theorem minimum_supported_version :
    MAKE_CP_VERSION 1 1 0 = 0x00401000 ∧
    msm_secure_v2_is_supported (fun _ => (MAKE_CP_VERSION 1 1 0).toNat) = true ∧
    msm_secure_v2_is_supported (fun _ => (MAKE_CP_VERSION 1 0 999).toNat) = false ∧
    msm_secure_v2_is_supported (fun _ => (MAKE_CP_VERSION 0 9 0).toNat) = false ∧
    (∀ f : Nat → Nat, f FEATURE_ID_CP < 2147483648 →
      msm_secure_v2_is_supported f = true → (MAKE_CP_VERSION 1 1 0).toNat ≤ f FEATURE_ID_CP) := by
  refine ⟨by decide, by decide, by decide, by decide, ?_⟩
  intro f hlt hs
  have h := (supported_iff f (by omega)).mp hs
  rw [make_cp_version_1_1_0]
  have ht : (0x00401000 : Int).toNat = 0x00401000 := by decide
  rw [ht]
  exact h.1

/-- C10 at the reported value `0x00500000`. -/
theorem minimum_supported_version_witness :
    (0x00500000 < 2147483648 ∧ msm_secure_v2_is_supported (fun _ => 0x00500000) = true) ∧
    (MAKE_CP_VERSION 1 1 0).toNat ≤ 0x00500000 :=
  ⟨by decide, minimum_supported_version.2.2.2.2 (fun _ => 0x00500000) (by decide) (by decide)⟩

/-! ## Where the monitor calls of a log come from -/

/-- Induction over the region loop that remembers that every entry visited
belongs to the list the loop was started on. -/
theorem for_each_sg_induction_mem (K : Kernel) (nents : Nat) (lock : Int)
    (all : List scatterlist) (P : Int → World → Prop) (Q : Result → Prop)
    (hret : ∀ sg i ret w code w1, sg ∈ all → P ret w →
      secure_buffer_change_sg K lock sg i w = Iter.returned code w1 → Q (Result.ret code w1))
    (hnext : ∀ sg i ret w i1 ret1 w1, sg ∈ all → P ret w →
      secure_buffer_change_sg K lock sg i w = Iter.next i1 ret1 w1 → P ret1 w1)
    (hexit : ∀ ret w, P ret w → Q (Result.ret ret w))
    (hfault : ∀ ret w, P ret w → Q (Result.fault w)) :
    ∀ (sgs : List scatterlist) (i ret : Int) (w : World), (∀ sg ∈ sgs, sg ∈ all) → P ret w →
      Q (for_each_sg K nents lock sgs i ret w) := by
  intro sgs
  induction sgs with
  | nil =>
    intro i ret w _ hP
    unfold for_each_sg
    split
    · exact hfault ret w hP
    · exact hexit ret w hP
  | cons sg rest ih =>
    intro i ret w hsub hP
    have hsg : sg ∈ all := hsub sg (List.mem_cons_self sg rest)
    have hrest : ∀ x ∈ rest, x ∈ all := fun x hx => hsub x (List.mem_cons_of_mem sg hx)
    unfold for_each_sg
    split
    · cases hb : secure_buffer_change_sg K lock sg i w with
      | returned code w1 => exact hret sg i ret w code w1 hsg hP hb
      | next i1 ret1 w1 => exact ih _ ret1 w1 hrest (hnext sg i ret w i1 ret1 w1 hsg hP hb)
    · exact hexit ret w hP

/-- A call with an origin in a log keeps it when events are appended. -/
theorem call_origin_append (K : Kernel) (lock : Int) (all : List scatterlist)
    (log more : List Event) (c : MonitorCall) (h : call_origin K lock all log c) :
    call_origin K lock all (log ++ more) c := by
  obtain ⟨hmem, hv, before, after, va, hlog, hk, hc⟩ := h
  refine ⟨hmem, hv, before, after ++ more, va, ?_, hk, hc⟩
  rw [hlog]
  simp only [List.append_assoc]

/-- Every monitor call logged by the region loop has an origin. -/
theorem for_each_sg_call_origin (K : Kernel) (nents : Nat) (lock : Int)
    (all sgs : List scatterlist) (i ret : Int) (w : World) (hsub : ∀ sg ∈ sgs, sg ∈ all)
    (h : ∀ c ∈ monitor_calls w.log, call_origin K lock all w.log c) :
    ∀ c ∈ monitor_calls (for_each_sg K nents lock sgs i ret w).world.log,
      call_origin K lock all (for_each_sg K nents lock sgs i ret w).world.log c := by
  refine for_each_sg_induction_mem K nents lock all
    (fun _ w => ∀ c ∈ monitor_calls w.log, call_origin K lock all w.log c)
    (fun r => ∀ c ∈ monitor_calls r.world.log, call_origin K lock all r.world.log c)
    ?_ ?_ ?_ ?_ sgs i ret w hsub h
  · intro sg i ret w code w1 _ hP hb
    have hw1 : ∃ e, w1 = w.emit e ∧ monitor_calls [e] = [] := by
      rcases body_shape K lock sg i w with ⟨e, he, hm⟩ | ⟨e, he, hm⟩ | ⟨i1, c, log1, _, _, he⟩
      · rw [he] at hb
        injection hb with _ hw
        exact ⟨e, hw.symm, hm⟩
      · rw [he] at hb
        injection hb with _ hw
        exact ⟨e, hw.symm, hm⟩
      · rw [he] at hb
        cases hb
    obtain ⟨e, hw1, hm⟩ := hw1
    subst hw1
    intro c hc
    simp only [Result.world, World.emit, monitor_calls_append, hm, List.append_nil] at hc ⊢
    exact call_origin_append K lock all w.log [e] c (hP c hc)
  · intro sg i ret w i1 ret1 w1 hsg hP hb
    by_cases hv : to_int (sg_dma_len sg) = 0 ∨ (to_int (sg_dma_len sg)).tmod V2_CHUNK_SIZE ≠ 0
    · rw [body_invalid K lock sg i w hv] at hb
      cases hb
    · cases ha : K.kzalloc w.log (chunk_list_bytes sg) with
      | none =>
        rw [body_nomem K lock sg i w hv ha] at hb
        cases hb
      | some va =>
        rw [body_ok K lock sg i w va hv ha] at hb
        injection hb with _ _ hw
        subst hw
        intro c hc
        simp only [monitor_calls_body_ok, List.mem_append, List.mem_singleton] at hc
        rcases hc with hold | hnew
        · exact call_origin_append K lock all w.log _ c (hP c hold)
        · subst hnew
          exact ⟨hsg, hv, w.log, [], va, by simp [issued_call], ha, rfl⟩
  · intro ret w hP
    exact hP
  · intro ret w hP
    exact hP

/-- Every monitor call logged by an operation has an origin. -/
theorem locked_change_table_call_origin (K : Kernel) (table : sg_table) (lock : Int)
    (flags : Nat → Bool) :
    ∀ c ∈ monitor_calls (locked_change_table K table lock flags).world.log,
      call_origin K lock table.sgl (locked_change_table K table lock flags).world.log c := by
  have h := for_each_sg_call_origin K table.nents lock table.sgl table.sgl 0 (-EINVAL)
    { PagePrivate := flags, log := [Event.mutex_lock] } (fun _ hsg => hsg)
    (by intro c hc; simp [monitor_calls] at hc)
  unfold locked_change_table secure_buffer_change_table
  cases hr : for_each_sg K table.nents lock table.sgl 0 (-EINVAL)
      { PagePrivate := flags, log := [Event.mutex_lock] } with
  | ret code w1 =>
    rw [hr] at h
    intro c hc
    simp only [Result.world, World.emit, monitor_calls_append, monitor_calls,
      List.append_nil] at hc ⊢
    exact call_origin_append K lock table.sgl w1.log [Event.mutex_unlock] c (h c hc)
  | fault w1 =>
    rw [hr] at h
    exact h

/-! ## Lengths with bit 31 set -/

/-- For a length of 2^31 or more that passes the size check, the `int` chunk
count is negative and the byte count handed to `kzalloc` wraps to 2^32 minus
four times the number of chunks missing to 4 GiB; the chunk count the monitor
would be given wraps likewise. -/
theorem chunk_list_bytes_large (sg : scatterlist) (h32 : sg_dma_len sg < 4294967296)
    (hbig : 2147483648 ≤ sg_dma_len sg)
    (hv : ¬ (to_int (sg_dma_len sg) = 0 ∨ (to_int (sg_dma_len sg)).tmod V2_CHUNK_SIZE ≠ 0)) :
    (to_int (sg_dma_len sg)).tdiv V2_CHUNK_SIZE
      = -(((4294967296 - sg_dma_len sg) / 1048576 : Nat) : Int) ∧
    chunk_list_bytes sg = 4294967296 - 4 * ((4294967296 - sg_dma_len sg) / 1048576) ∧
    to_u32 ((to_int (sg_dma_len sg)).tdiv V2_CHUNK_SIZE)
      = 4294967296 - (4294967296 - sg_dma_len sg) / 1048576 ∧
    2147483648 ≤ chunk_list_bytes sg := by
  have hi : to_int (sg_dma_len sg) = -(((4294967296 - sg_dma_len sg : Nat)) : Int) := by
    unfold to_int
    have hm : sg_dma_len sg % 4294967296 = sg_dma_len sg := by omega
    rw [hm, if_neg (by omega)]
    omega
  have hd : (to_int (sg_dma_len sg)).tdiv V2_CHUNK_SIZE
      = -(((4294967296 - sg_dma_len sg) / 1048576 : Nat) : Int) := by
    rw [hi, Int.neg_tdiv]
    unfold V2_CHUNK_SIZE
    rw [Int.tdiv_eq_ediv (by omega) (by omega)]
    omega
  have hmul : sg_dma_len sg % 1048576 = 0 := by
    by_contra hne
    exact hv (invalid_size_of_not_multiple sg hne)
  have hq : (4294967296 - sg_dma_len sg) / 1048576 ≤ 2048 := by omega
  have hq1 : 1 ≤ (4294967296 - sg_dma_len sg) / 1048576 := by omega
  have hb : chunk_list_bytes sg = 4294967296 - 4 * ((4294967296 - sg_dma_len sg) / 1048576) := by
    unfold chunk_list_bytes
    rw [hd]
    unfold sizeof_unsigned_long to_u32 to_int
    split <;> omega
  refine ⟨hd, hb, ?_, ?_⟩
  · rw [hd]
    unfold to_u32
    omega
  · rw [hb]
    omega

/-! ## C11: the lock request -/

theorem to_u32_lt (x : Int) : to_u32 x < 4294967296 := by
  unfold to_u32
  omega

/-- C11.  With an allocator that never grants 2 GiB or more and scatterlist
lengths that fit their `unsigned int` field, every monitor call logged by
`msm_ion_secure_table` and `msm_ion_unsecure_table` follows the allocation of
a chunk list at some address `va` and the flush of it, and carries the request
whose five 32-bit words are, in order, the physical address of that chunk list,
the chunk count `length / 2^20` of the region, the chunk size `2^20`, the usage
`0`, and the lock flag (`1` for secure, `0` for unsecure); the request length
passed is 20 bytes, four per word, the service is `SCM_SVC_MP` and the command
`0x0A`; the memory the request points to holds the chunk list the inner loop
built for the region. -/
theorem lock_request_fields (K : Kernel) (table : sg_table) (flags : Nat → Bool)
    (htyped : ∀ sg ∈ table.sgl, sg_dma_len sg < 4294967296)
    (halloc : ∀ log n, 2147483648 ≤ n → K.kzalloc log n = none) :
    (∀ c ∈ monitor_calls (msm_ion_secure_table K table flags).world.log,
      (∃ (before after : List Event) (va : Nat),
        (msm_ion_secure_table K table flags).world.log
          = before ++ [Event.kzalloc (4 * (sg_dma_len c.sg / 1048576)) (some va),
              Event.dmac_flush_range va (flush_stop c.sg va), Event.scm_call c,
              Event.kfree va] ++ after ∧
        cp2_lock_req_words c.request
          = [to_u32 (K.virt_to_phys va), sg_dma_len c.sg / 1048576, 1048576, 0, 1]) ∧
      (∀ x ∈ cp2_lock_req_words c.request, x < 4294967296) ∧
      c.cmd_len = 4 * (cp2_lock_req_words c.request).length ∧ c.cmd_len = 20 ∧
      c.svc_id = SCM_SVC_MP ∧ c.cmd_id = 0x0A ∧
      c.sg ∈ table.sgl ∧ c.chunk_list = (filled_chunk_list c.sg).2) ∧
    (∀ c ∈ monitor_calls (msm_ion_unsecure_table K table flags).world.log,
      (∃ (before after : List Event) (va : Nat),
        (msm_ion_unsecure_table K table flags).world.log
          = before ++ [Event.kzalloc (4 * (sg_dma_len c.sg / 1048576)) (some va),
              Event.dmac_flush_range va (flush_stop c.sg va), Event.scm_call c,
              Event.kfree va] ++ after ∧
        cp2_lock_req_words c.request
          = [to_u32 (K.virt_to_phys va), sg_dma_len c.sg / 1048576, 1048576, 0, 0]) ∧
      (∀ x ∈ cp2_lock_req_words c.request, x < 4294967296) ∧
      c.cmd_len = 4 * (cp2_lock_req_words c.request).length ∧ c.cmd_len = 20 ∧
      c.svc_id = SCM_SVC_MP ∧ c.cmd_id = 0x0A ∧
      c.sg ∈ table.sgl ∧ c.chunk_list = (filled_chunk_list c.sg).2) := by
  have key : ∀ lock : Int,
      ∀ c ∈ monitor_calls (locked_change_table K table lock flags).world.log,
      (∃ (before after : List Event) (va : Nat),
        (locked_change_table K table lock flags).world.log
          = before ++ [Event.kzalloc (4 * (sg_dma_len c.sg / 1048576)) (some va),
              Event.dmac_flush_range va (flush_stop c.sg va), Event.scm_call c,
              Event.kfree va] ++ after ∧
        cp2_lock_req_words c.request
          = [to_u32 (K.virt_to_phys va), sg_dma_len c.sg / 1048576, 1048576, 0, to_u32 lock]) ∧
      (∀ x ∈ cp2_lock_req_words c.request, x < 4294967296) ∧
      c.cmd_len = 4 * (cp2_lock_req_words c.request).length ∧ c.cmd_len = 20 ∧
      c.svc_id = SCM_SVC_MP ∧ c.cmd_id = 0x0A ∧
      c.sg ∈ table.sgl ∧ c.chunk_list = (filled_chunk_list c.sg).2 := by
    intro lock c hc
    obtain ⟨hmem, hv, before, after, va, hlog, hk, hceq⟩ :=
      locked_change_table_call_origin K table lock flags c hc
    have h32 := htyped c.sg hmem
    -- the allocation was granted, so the length is below 2^31
    have hsmall : sg_dma_len c.sg < 2147483648 := by
      by_contra hbig
      have hlarge := (chunk_list_bytes_large c.sg h32 (by omega) hv).2.2.2
      rw [halloc before _ hlarge] at hk
      cases hk
    have hpos : 0 < sg_dma_len c.sg := by
      by_contra h0
      have hz : sg_dma_len c.sg = 0 := by omega
      apply hv
      left
      rw [hz]
      decide
    have hmul : sg_dma_len c.sg % 1048576 = 0 := by
      by_contra hne
      exact hv (invalid_size_of_not_multiple c.sg hne)
    obtain ⟨_, hd, hb⟩ := valid_size c.sg hpos hmul hsmall
    have hwords : cp2_lock_req_words c.request
        = [to_u32 (K.virt_to_phys va), sg_dma_len c.sg / 1048576, 1048576, 0, to_u32 lock] := by
      have hreq : c.request = (issued_call K lock c.sg before va).request :=
        congrArg MonitorCall.request hceq
      have hcs : to_u32 V2_CHUNK_SIZE = 1048576 := by decide
      have hcount : to_u32 ((sg_dma_len c.sg / 1048576 : Nat) : Int)
          = sg_dma_len c.sg / 1048576 := by
        rw [to_u32_of_range _ (by omega) (by omega), Int.toNat_ofNat]
      rw [hreq]
      simp only [cp2_lock_req_words, issued_call, secure_buffer_change_chunk_request]
      rw [hd, hcount, hcs]
    refine ⟨⟨before, after, va, ?_, hwords⟩, ?_, ?_, ?_, ?_, ?_, hmem, ?_⟩
    · rw [← hb]
      exact hlog
    · intro x hx
      rw [hwords] at hx
      simp only [List.mem_cons, List.mem_singleton, List.not_mem_nil, or_false] at hx
      rcases hx with h | h | h | h | h
      · rw [h]; exact to_u32_lt _
      · rw [h]; omega
      · rw [h]; omega
      · rw [h]; omega
      · rw [h]; exact to_u32_lt _
    · rw [congrArg MonitorCall.cmd_len hceq]; rfl
    · rw [congrArg MonitorCall.cmd_len hceq]; rfl
    · rw [congrArg MonitorCall.svc_id hceq]; rfl
    · rw [congrArg MonitorCall.cmd_id hceq]; rfl
    · rw [congrArg MonitorCall.chunk_list hceq]; rfl
  exact ⟨key 1, key 0⟩

/-- C11 at the single region `region_3M` with an allocator that grants at most
4 MiB: the one request of each operation is, word by word,
`[0x81000000, 3, 0x100000, 0, lock]`. -/
theorem lock_request_fields_witness :
    ((∀ sg ∈ table_3M.sgl, sg_dma_len sg < 4294967296) ∧
      (∀ (log : List Event) (n : Nat), 2147483648 ≤ n → kernel_bounded.kzalloc log n = none)) ∧
    ((∀ c ∈ monitor_calls (msm_ion_secure_table kernel_bounded table_3M no_flags).world.log,
      (∃ (before after : List Event) (va : Nat),
        (msm_ion_secure_table kernel_bounded table_3M no_flags).world.log
          = before ++ [Event.kzalloc (4 * (sg_dma_len c.sg / 1048576)) (some va),
              Event.dmac_flush_range va (flush_stop c.sg va), Event.scm_call c,
              Event.kfree va] ++ after ∧
        cp2_lock_req_words c.request
          = [to_u32 (kernel_bounded.virt_to_phys va), sg_dma_len c.sg / 1048576, 1048576, 0,
              1]) ∧
      (∀ x ∈ cp2_lock_req_words c.request, x < 4294967296) ∧
      c.cmd_len = 4 * (cp2_lock_req_words c.request).length ∧ c.cmd_len = 20 ∧
      c.svc_id = SCM_SVC_MP ∧ c.cmd_id = 0x0A ∧
      c.sg ∈ table_3M.sgl ∧ c.chunk_list = (filled_chunk_list c.sg).2) ∧
    (∀ c ∈ monitor_calls (msm_ion_unsecure_table kernel_bounded table_3M no_flags).world.log,
      (∃ (before after : List Event) (va : Nat),
        (msm_ion_unsecure_table kernel_bounded table_3M no_flags).world.log
          = before ++ [Event.kzalloc (4 * (sg_dma_len c.sg / 1048576)) (some va),
              Event.dmac_flush_range va (flush_stop c.sg va), Event.scm_call c,
              Event.kfree va] ++ after ∧
        cp2_lock_req_words c.request
          = [to_u32 (kernel_bounded.virt_to_phys va), sg_dma_len c.sg / 1048576, 1048576, 0,
              0]) ∧
      (∀ x ∈ cp2_lock_req_words c.request, x < 4294967296) ∧
      c.cmd_len = 4 * (cp2_lock_req_words c.request).length ∧ c.cmd_len = 20 ∧
      c.svc_id = SCM_SVC_MP ∧ c.cmd_id = 0x0A ∧
      c.sg ∈ table_3M.sgl ∧ c.chunk_list = (filled_chunk_list c.sg).2)) ∧
    (monitor_calls (msm_ion_secure_table kernel_bounded table_3M no_flags).world.log).map
        (fun c => cp2_lock_req_words c.request) = [[0x81000000, 3, 0x100000, 0, 1]] ∧
    (monitor_calls (msm_ion_unsecure_table kernel_bounded table_3M no_flags).world.log).map
        (fun c => cp2_lock_req_words c.request) = [[0x81000000, 3, 0x100000, 0, 0]] :=
  ⟨⟨by decide, fun _ n hn => if_neg (by omega)⟩,
    lock_request_fields kernel_bounded table_3M no_flags (by decide)
      (fun _ n hn => if_neg (by omega)),
    by decide, by decide⟩

/-! ## C12: the mutex, seen from one caller -/

/-- What one caller does with the mutex: the first event of an operation is
`mutex_lock`, and when the operation returns its last event is
`mutex_unlock`. -/
theorem mutex_bracket (K : Kernel) (table : sg_table) (lock : Int) (flags : Nat → Bool) :
    (locked_change_table K table lock flags).world.log.head? = some Event.mutex_lock ∧
    ((locked_change_table K table lock flags).faulted = false →
      (locked_change_table K table lock flags).world.log.getLast? = some Event.mutex_unlock) := by
  have h : ∃ tl, (for_each_sg K table.nents lock table.sgl 0 (-EINVAL)
      { PagePrivate := flags, log := [Event.mutex_lock] }).world.log
        = Event.mutex_lock :: tl := by
    refine for_each_sg_induction K table.nents lock
      (fun _ w => ∃ tl, w.log = Event.mutex_lock :: tl)
      (fun r => ∃ tl, r.world.log = Event.mutex_lock :: tl)
      ?_ ?_ ?_ ?_ table.sgl 0 (-EINVAL) _ ⟨[], rfl⟩
    · intro sg i ret w code w1 hP hb
      obtain ⟨tl, htl⟩ := hP
      rcases body_shape K lock sg i w with ⟨e, he, _⟩ | ⟨e, he, _⟩ | ⟨i1, c, log1, _, _, he⟩
      · rw [he] at hb
        injection hb with _ hw
        subst hw
        exact ⟨tl ++ [e], by simp [Result.world, World.emit, htl]⟩
      · rw [he] at hb
        injection hb with _ hw
        subst hw
        exact ⟨tl ++ [e], by simp [Result.world, World.emit, htl]⟩
      · rw [he] at hb
        cases hb
    · intro sg i ret w i1 ret1 w1 hP hb
      obtain ⟨tl, htl⟩ := hP
      by_cases hv : to_int (sg_dma_len sg) = 0 ∨ (to_int (sg_dma_len sg)).tmod V2_CHUNK_SIZE ≠ 0
      · rw [body_invalid K lock sg i w hv] at hb
        cases hb
      · cases ha : K.kzalloc w.log (chunk_list_bytes sg) with
        | none =>
          rw [body_nomem K lock sg i w hv ha] at hb
          cases hb
        | some va =>
          rw [body_ok K lock sg i w va hv ha] at hb
          injection hb with _ _ hw
          subst hw
          exact ⟨tl ++ [Event.kzalloc (chunk_list_bytes sg) (some va),
            Event.dmac_flush_range va (flush_stop sg va),
            Event.scm_call (issued_call K lock sg w.log va), Event.kfree va],
            by simp only [htl, List.cons_append]⟩
    · intro ret w hP
      exact hP
    · intro ret w hP
      exact hP
  obtain ⟨tl, htl⟩ := h
  unfold locked_change_table secure_buffer_change_table
  cases hr : for_each_sg K table.nents lock table.sgl 0 (-EINVAL)
      { PagePrivate := flags, log := [Event.mutex_lock] } with
  | ret code w1 =>
    rw [hr] at htl
    simp only [Result.world] at htl
    refine ⟨by simp [Result.world, World.emit, htl], fun _ => ?_⟩
    simp only [Result.world, World.emit]
    exact List.getLast?_concat w1.log
  | fault w1 =>
    rw [hr] at htl
    simp only [Result.world] at htl
    simp [Result.world, Result.faulted, htl]

/-! ## C13: one monitor call per region -/

/-- C13 fails on the code.  In `table_1M_1M` both regions are valid, and the
allocator and the monitor always succeed; the inner loop leaves the loop index
at 1, the increment makes it 2, and the region loop ends: each operation
issues one monitor call, for the first region, instead of two, and returns
0. -/
theorem second_region_not_submitted :
    (table_1M_1M.nents = 2 ∧ table_1M_1M.sgl.length = 2 ∧
      ∀ sg ∈ table_1M_1M.sgl, 0 < sg_dma_len sg ∧ sg_dma_len sg % 1048576 = 0 ∧
        sg_dma_len sg < 2147483648) ∧
    ((msm_ion_secure_table kernel_ok table_1M_1M no_flags).code = some 0 ∧
      (monitor_calls (msm_ion_secure_table kernel_ok table_1M_1M no_flags).world.log).map
        (fun c => c.sg) = [region_1M_a] ∧
      (msm_ion_secure_table kernel_ok table_1M_1M no_flags).world.PagePrivate
        (sg_page region_1M_b) = false) ∧
    ((msm_ion_unsecure_table kernel_ok table_1M_1M all_flags).code = some 0 ∧
      (monitor_calls (msm_ion_unsecure_table kernel_ok table_1M_1M all_flags).world.log).map
        (fun c => c.sg) = [region_1M_a] ∧
      (msm_ion_unsecure_table kernel_ok table_1M_1M all_flags).world.PagePrivate
        (sg_page region_1M_b) = true) := by
  decide

/-! ## C14: the region loop and the end of the list -/

/-- C14 fails on the code.  In `table_1M_1M_1M` the three regions are valid and
everything succeeds; after each region the loop index is 2, which is below
`nents = 3`, so after the third region the loop advances the entry pointer a
third time, to NULL, and enters the body again: the operation dereferences
NULL after three monitor calls and does not return. -/
theorem loop_runs_past_last_entry :
    (table_1M_1M_1M.nents = 3 ∧ table_1M_1M_1M.sgl.length = 3 ∧
      ∀ sg ∈ table_1M_1M_1M.sgl, 0 < sg_dma_len sg ∧ sg_dma_len sg % 1048576 = 0 ∧
        sg_dma_len sg < 2147483648) ∧
    ((msm_ion_secure_table kernel_ok table_1M_1M_1M no_flags).faulted = true ∧
      (msm_ion_secure_table kernel_ok table_1M_1M_1M no_flags).code = none ∧
      (monitor_calls (msm_ion_secure_table kernel_ok table_1M_1M_1M no_flags).world.log).map
        (fun c => c.sg) = [region_1M_a, region_1M_b, region_1M_c]) ∧
    ((msm_ion_unsecure_table kernel_ok table_1M_1M_1M no_flags).faulted = true ∧
      (msm_ion_unsecure_table kernel_ok table_1M_1M_1M no_flags).code = none ∧
      (monitor_calls (msm_ion_unsecure_table kernel_ok table_1M_1M_1M no_flags).world.log).map
        (fun c => c.sg) = [region_1M_a, region_1M_b, region_1M_c]) := by
  decide

/-! ## C15: lengths of 2 GiB and more -/

/-- C15 fails on the code.  The length `0x80000000` is a positive multiple of
1 MiB with `len / 2^20 = 2048`; held in an `int` it is negative, the chunk
count computed is `-2048`, the byte count requested from the allocator is
`4294959104` instead of `8192`, and the chunk count a monitor call would carry
is `4294965248`.  With an allocator that grants at most 4 MiB the operation
logs that request, gets NULL and returns `-ENOMEM`. -/
theorem length_2G_chunk_count_wraps :
    (0 < sg_dma_len region_2G ∧ sg_dma_len region_2G % 1048576 = 0 ∧
      sg_dma_len region_2G < 4294967296 ∧ sg_dma_len region_2G / 1048576 = 2048 ∧
      sg_dma_len region_2G / 1048576 * 4 = 8192) ∧
    (to_int (sg_dma_len region_2G)).tdiv V2_CHUNK_SIZE = -2048 ∧
    chunk_list_bytes region_2G = 4294959104 ∧
    (issued_call kernel_ok 1 region_2G [Event.mutex_lock] 0xC1000000).request.chunks.chunk_list_size
      = 4294965248 ∧
    (msm_ion_secure_table kernel_bounded table_2G no_flags).world.log
      = [Event.mutex_lock, Event.kzalloc 4294959104 none, Event.mutex_unlock] ∧
    (msm_ion_secure_table kernel_bounded table_2G no_flags).code = some (-ENOMEM) ∧
    (msm_ion_unsecure_table kernel_bounded table_2G no_flags).world.log
      = [Event.mutex_lock, Event.kzalloc 4294959104 none, Event.mutex_unlock] ∧
    (msm_ion_unsecure_table kernel_bounded table_2G no_flags).code = some (-ENOMEM) := by
  decide

/-! ## C16: allocation failure -/

/-- A non-zero multiple of 1 MiB that fits an `unsigned int` passes the size
check, whatever its sign as an `int`. -/
theorem size_check_passes (sg : scatterlist) (hpos : 0 < sg_dma_len sg)
    (hmul : sg_dma_len sg % 1048576 = 0) (h32 : sg_dma_len sg < 4294967296) :
    ¬ (to_int (sg_dma_len sg) = 0 ∨ (to_int (sg_dma_len sg)).tmod V2_CHUNK_SIZE ≠ 0) := by
  have hm : sg_dma_len sg % 4294967296 = sg_dma_len sg := by omega
  have hd : (1048576 : Int) ∣ to_int (sg_dma_len sg) := by
    unfold to_int
    rw [hm]
    split <;> omega
  have hne : to_int (sg_dma_len sg) ≠ 0 := by
    unfold to_int
    rw [hm]
    split <;> omega
  intro h
  rcases h with h | h
  · exact hne h
  · exact h (Int.tmod_eq_zero_of_dvd hd)

/-- C16.  When the region loop of `secure_buffer_change_table` processes a
region of valid length and the allocation of its chunk list fails, the
function returns `-ENOMEM` at once, whatever `ret` held from earlier regions:
the only new event is the failed allocation, so no monitor call is issued for
this region or a later one and no page flag changes.  In particular this is so
when the allocation for the first region of a table fails. -/
theorem allocation_failure_returns_enomem (K : Kernel) (nents : Nat) (lock : Int)
    (sg : scatterlist) (rest : List scatterlist) (i ret : Int) (w : World)
    (hreach : to_u32 i < nents)
    (hpos : 0 < sg_dma_len sg) (hmul : sg_dma_len sg % 1048576 = 0)
    (h32 : sg_dma_len sg < 4294967296)
    (hnull : K.kzalloc w.log (chunk_list_bytes sg) = none) :
    for_each_sg K nents lock (sg :: rest) i ret w
      = Result.ret (-ENOMEM) (w.emit (Event.kzalloc (chunk_list_bytes sg) none)) ∧
    (for_each_sg K nents lock (sg :: rest) i ret w).code = some (-ENOMEM) ∧
    monitor_calls (for_each_sg K nents lock (sg :: rest) i ret w).world.log
      = monitor_calls w.log ∧
    (for_each_sg K nents lock (sg :: rest) i ret w).world.PagePrivate = w.PagePrivate ∧
    (0 < nents →
      secure_buffer_change_table K { sgl := sg :: rest, nents := nents } lock w
        = Result.ret (-ENOMEM) (w.emit (Event.kzalloc (chunk_list_bytes sg) none))) := by
  have hv := size_check_passes sg hpos hmul h32
  have hstep : ∀ (j r : Int), to_u32 j < nents →
      for_each_sg K nents lock (sg :: rest) j r w
        = Result.ret (-ENOMEM) (w.emit (Event.kzalloc (chunk_list_bytes sg) none)) := by
    intro j r hj
    rw [for_each_sg, if_pos hj, body_nomem K lock sg j w hv hnull]
  rw [hstep i ret hreach]
  refine ⟨rfl, rfl, ?_, rfl, ?_⟩
  · simp [Result.world, World.emit, monitor_calls_append, monitor_calls]
  · intro hn
    unfold secure_buffer_change_table
    exact hstep 0 (-EINVAL) (by simpa [to_u32] using hn)

/-- C16 at the second pass of a loop over two regions of 1 MiB, entered with
`ret = 0` from the first region and an allocator that answers NULL. -/
theorem allocation_failure_returns_enomem_witness :
    (to_u32 1 < 3 ∧ 0 < sg_dma_len region_1M_b ∧ sg_dma_len region_1M_b % 1048576 = 0 ∧
      sg_dma_len region_1M_b < 4294967296 ∧
      kernel_no_memory.kzalloc world_zero.log (chunk_list_bytes region_1M_b) = none) ∧
    (for_each_sg kernel_no_memory 3 1 (region_1M_b :: [region_1M_c]) 1 0 world_zero
      = Result.ret (-ENOMEM) (world_zero.emit (Event.kzalloc (chunk_list_bytes region_1M_b) none)) ∧
    (for_each_sg kernel_no_memory 3 1 (region_1M_b :: [region_1M_c]) 1 0 world_zero).code
      = some (-ENOMEM) ∧
    monitor_calls (for_each_sg kernel_no_memory 3 1 (region_1M_b :: [region_1M_c]) 1 0
      world_zero).world.log = monitor_calls world_zero.log ∧
    (for_each_sg kernel_no_memory 3 1 (region_1M_b :: [region_1M_c]) 1 0
      world_zero).world.PagePrivate = world_zero.PagePrivate ∧
    (0 < 3 →
      secure_buffer_change_table kernel_no_memory
          { sgl := region_1M_b :: [region_1M_c], nents := 3 } 1 world_zero
        = Result.ret (-ENOMEM)
            (world_zero.emit (Event.kzalloc (chunk_list_bytes region_1M_b) none)))) :=
  ⟨⟨by decide, by decide, by decide, by decide, rfl⟩,
    allocation_failure_returns_enomem kernel_no_memory 3 1 region_1M_b [region_1M_c] 1 0
      world_zero (by decide) (by decide) (by decide) (by decide) rfl⟩

/-! ## C17: the range handed to the cache flush -/

/-- For a region of valid length the end address handed to `dmac_flush_range`
lies four times the byte length of the chunk list past its start (modulo
2^32): the byte count is added to a pointer to 4-byte words. -/
theorem flush_stop_valid (sg : scatterlist) (va : Nat) (hpos : 0 < sg_dma_len sg)
    (hmul : sg_dma_len sg % 1048576 = 0) (hlt : sg_dma_len sg < 2147483648) :
    flush_stop sg va = (va + 4 * chunk_list_bytes sg) % 4294967296 := by
  obtain ⟨_, hd, hb⟩ := valid_size sg hpos hmul hlt
  unfold flush_stop
  rw [hd, hb]
  unfold sizeof_unsigned_long to_u32 to_int
  split <;> omega

/-- C17 fails on the code.  For `region_3M` the chunk list has 3 entries and
12 bytes, allocated at `0xC1000000`, so it ends at `0xC100000C`; the range
handed to `dmac_flush_range` starts at the buffer and ends at `0xC1000030`, 48
bytes later.  The flush does come after the allocation and before the monitor
call. -/
theorem flush_range_four_times_too_long :
    (msm_ion_secure_table kernel_ok table_3M no_flags).world.log
      = [Event.mutex_lock, Event.kzalloc 12 (some 0xC1000000),
          Event.dmac_flush_range 0xC1000000 0xC1000030,
          Event.scm_call (issued_call kernel_ok 1 region_3M [Event.mutex_lock] 0xC1000000),
          Event.kfree 0xC1000000, Event.mutex_unlock] ∧
    (issued_call kernel_ok 1 region_3M [Event.mutex_lock] 0xC1000000).request.chunks.chunk_list_size
        * sizeof_unsigned_long = 12 ∧
    0xC1000000 + 12 = 0xC100000C ∧
    flush_stop region_3M 0xC1000000 = 0xC1000030 ∧
    flush_stop region_3M 0xC1000000 ≠ 0xC1000000 + 12 ∧
    flush_stop region_3M 0xC1000000 = 0xC1000000 + 4 * 12 := by
  decide

/-! ## C18: which flag a successful pass changes -/

/-- C18.  In a pass through the loop body whose monitor call returns 0, the
flag of the first page of the region (`sg_page`) ends set when `lock = 1` and
clear when `lock = 0`, and the flag of every other page, the remaining pages
of the same region among them, is the one it had before the pass. -/
theorem success_changes_first_page_only (K : Kernel) (lock : Int) (sg : scatterlist)
    (i i1 : Int) (w w1 : World)
    (h : secure_buffer_change_sg K lock sg i w = Iter.next i1 0 w1) :
    (lock = 1 → w1.PagePrivate (sg_page sg) = true) ∧
    (lock = 0 → w1.PagePrivate (sg_page sg) = false) ∧
    (∀ p, p ≠ sg_page sg → w1.PagePrivate p = w.PagePrivate p) ∧
    (∀ p, page_in_region sg p → p ≠ sg_page sg → w1.PagePrivate p = w.PagePrivate p) ∧
    (∃ c, monitor_calls w1.log = monitor_calls w.log ++ [c] ∧ c.sg = sg ∧ c.ret = 0) := by
  by_cases hv : to_int (sg_dma_len sg) = 0 ∨ (to_int (sg_dma_len sg)).tmod V2_CHUNK_SIZE ≠ 0
  · rw [body_invalid K lock sg i w hv] at h
    cases h
  · cases ha : K.kzalloc w.log (chunk_list_bytes sg) with
    | none =>
      rw [body_nomem K lock sg i w hv ha] at h
      cases h
    | some va =>
      rw [body_ok K lock sg i w va hv ha] at h
      injection h with _ hr hw
      subst hw
      have hunch : ∀ p, p ≠ sg_page sg →
          (if (issued_call K lock sg w.log va).ret = 0 ∧ p = sg_page sg then decide (lock ≠ 0)
            else w.PagePrivate p) = w.PagePrivate p := by
        intro p hp
        rw [if_neg (fun hc => hp hc.2)]
      refine ⟨?_, ?_, hunch, fun p _ hp => hunch p hp, ?_⟩
      · intro hl
        simp only []
        rw [if_pos ⟨hr, trivial⟩, hl]
        decide
      · intro hl
        simp only []
        rw [if_pos ⟨hr, trivial⟩, hl]
        decide
      · exact ⟨issued_call K lock sg w.log va, monitor_calls_body_ok w.log _ va _ _, rfl, hr⟩

/-- C18 at a pass over `region_1M_a` with `lock = 1`, started with every flag
clear: the first page ends set and the second page of the region stays
clear. -/
theorem success_changes_first_page_only_witness :
    secure_buffer_change_sg kernel_ok 1 region_1M_a 0 world_zero
      = Iter.next 1 0 (secure_buffer_change_sg kernel_ok 1 region_1M_a 0 world_zero).world ∧
    (((1 : Int) = 1 →
        (secure_buffer_change_sg kernel_ok 1 region_1M_a 0 world_zero).world.PagePrivate
          (sg_page region_1M_a) = true) ∧
      ((1 : Int) = 0 →
        (secure_buffer_change_sg kernel_ok 1 region_1M_a 0 world_zero).world.PagePrivate
          (sg_page region_1M_a) = false) ∧
      (∀ p, p ≠ sg_page region_1M_a →
        (secure_buffer_change_sg kernel_ok 1 region_1M_a 0 world_zero).world.PagePrivate p
          = world_zero.PagePrivate p) ∧
      (∀ p, page_in_region region_1M_a p → p ≠ sg_page region_1M_a →
        (secure_buffer_change_sg kernel_ok 1 region_1M_a 0 world_zero).world.PagePrivate p
          = world_zero.PagePrivate p) ∧
      (∃ c, monitor_calls
            (secure_buffer_change_sg kernel_ok 1 region_1M_a 0 world_zero).world.log
          = monitor_calls world_zero.log ++ [c] ∧ c.sg = region_1M_a ∧ c.ret = 0)) ∧
    (secure_buffer_change_sg kernel_ok 1 region_1M_a 0 world_zero).world.PagePrivate 0x80000
      = true ∧
    (secure_buffer_change_sg kernel_ok 1 region_1M_a 0 world_zero).world.PagePrivate 0x80001
      = false :=
  ⟨rfl,
    success_changes_first_page_only kernel_ok 1 region_1M_a 0 1 world_zero
      (secure_buffer_change_sg kernel_ok 1 region_1M_a 0 world_zero).world rfl,
    by decide, by decide⟩

/-! ## C19: the empty list -/

/-- C19.  For a table with `nents = 0`, the empty list in particular,
`msm_ion_secure_table` and `msm_ion_unsecure_table` return `-EINVAL`, issue no
monitor call and change no page flag: they only take and release the mutex. -/
theorem empty_table_rejected (K : Kernel) (sgl : List scatterlist) (flags : Nat → Bool) :
    ((msm_ion_secure_table K { sgl := sgl, nents := 0 } flags).code = some (-EINVAL) ∧
      monitor_calls (msm_ion_secure_table K { sgl := sgl, nents := 0 } flags).world.log = [] ∧
      (msm_ion_secure_table K { sgl := sgl, nents := 0 } flags).world.PagePrivate = flags ∧
      (msm_ion_secure_table K { sgl := sgl, nents := 0 } flags).world.log
        = [Event.mutex_lock, Event.mutex_unlock]) ∧
    ((msm_ion_unsecure_table K { sgl := sgl, nents := 0 } flags).code = some (-EINVAL) ∧
      monitor_calls (msm_ion_unsecure_table K { sgl := sgl, nents := 0 } flags).world.log = [] ∧
      (msm_ion_unsecure_table K { sgl := sgl, nents := 0 } flags).world.PagePrivate = flags ∧
      (msm_ion_unsecure_table K { sgl := sgl, nents := 0 } flags).world.log
        = [Event.mutex_lock, Event.mutex_unlock]) := by
  have hloop : ∀ (lock : Int) (w : World),
      for_each_sg K 0 lock sgl 0 (-EINVAL) w = Result.ret (-EINVAL) w := by
    intro lock w
    cases sgl with
    | nil => rw [for_each_sg, if_neg (by decide)]
    | cons sg rest => rw [for_each_sg, if_neg (by decide)]
  constructor
  · unfold msm_ion_secure_table secure_buffer_change_table
    simp only [hloop]
    exact ⟨rfl, rfl, rfl, rfl⟩
  · unfold msm_ion_unsecure_table secure_buffer_change_table
    simp only [hloop]
    exact ⟨rfl, rfl, rfl, rfl⟩

/-! ## C20: the size check -/

/-- C20.  A list whose first region has length 0 is rejected: both operations
return `-EINVAL`, issue no monitor call and change no page flag.  More
generally, a pass through the loop body leaves by the size check (the warning
and `return -EINVAL`) exactly when the length, read as an `int`, is 0 or has a
non-zero remainder modulo 2^20; for a length that fits its `unsigned int`
field that is: the length is 0 or is not a multiple of 2^20. -/
theorem zero_length_region_rejected (K : Kernel) (lock : Int) (sg : scatterlist)
    (rest : List scatterlist) (nents : Nat) (flags : Nat → Bool) (i : Int) (w : World) :
    (sg_dma_len sg = 0 →
      ((msm_ion_secure_table K { sgl := sg :: rest, nents := nents } flags).code
          = some (-EINVAL) ∧
        monitor_calls (msm_ion_secure_table K { sgl := sg :: rest, nents := nents }
          flags).world.log = [] ∧
        (msm_ion_secure_table K { sgl := sg :: rest, nents := nents } flags).world.PagePrivate
          = flags) ∧
      ((msm_ion_unsecure_table K { sgl := sg :: rest, nents := nents } flags).code
          = some (-EINVAL) ∧
        monitor_calls (msm_ion_unsecure_table K { sgl := sg :: rest, nents := nents }
          flags).world.log = [] ∧
        (msm_ion_unsecure_table K { sgl := sg :: rest, nents := nents } flags).world.PagePrivate
          = flags)) ∧
    ((∃ size, secure_buffer_change_sg K lock sg i w
          = Iter.returned (-EINVAL) (w.emit (Event.warn i size)))
      ↔ (to_int (sg_dma_len sg) = 0 ∨ (to_int (sg_dma_len sg)).tmod V2_CHUNK_SIZE ≠ 0)) ∧
    (sg_dma_len sg < 4294967296 →
      ((to_int (sg_dma_len sg) = 0 ∨ (to_int (sg_dma_len sg)).tmod V2_CHUNK_SIZE ≠ 0)
        ↔ (sg_dma_len sg = 0 ∨ sg_dma_len sg % 1048576 ≠ 0))) := by
  refine ⟨?_, ?_, ?_⟩
  · intro hz
    have hinv : to_int (sg_dma_len sg) = 0 ∨ (to_int (sg_dma_len sg)).tmod V2_CHUNK_SIZE ≠ 0 := by
      left
      rw [hz]
      decide
    have key : ∀ lk : Int,
        (locked_change_table K { sgl := sg :: rest, nents := nents } lk flags).code
          = some (-EINVAL) ∧
        monitor_calls (locked_change_table K { sgl := sg :: rest, nents := nents } lk
          flags).world.log = [] ∧
        (locked_change_table K { sgl := sg :: rest, nents := nents } lk flags).world.PagePrivate
          = flags := by
      intro lk
      unfold locked_change_table secure_buffer_change_table
      simp only []
      rw [for_each_sg]
      by_cases hn : to_u32 0 < nents
      · rw [if_pos hn, body_invalid K lk sg 0 _ hinv]
        simp [Result.code, Result.world, World.emit, monitor_calls]
      · rw [if_neg hn]
        simp [Result.code, Result.world, World.emit, monitor_calls]
    exact ⟨key 1, key 0⟩
  · constructor
    · rintro ⟨size, hb⟩
      by_contra hv
      cases ha : K.kzalloc w.log (chunk_list_bytes sg) with
      | none =>
        rw [body_nomem K lock sg i w hv ha] at hb
        injection hb with hc _
        revert hc
        decide
      | some va =>
        rw [body_ok K lock sg i w va hv ha] at hb
        cases hb
    · intro hv
      exact ⟨_, body_invalid K lock sg i w hv⟩
  · intro h32
    constructor
    · intro hv
      by_contra hno
      have hpos : 0 < sg_dma_len sg := by omega
      have hmul : sg_dma_len sg % 1048576 = 0 := by omega
      exact size_check_passes sg hpos hmul h32 hv
    · intro h
      rcases h with hz | hne
      · left
        rw [hz]
        decide
      · exact invalid_size_of_not_multiple sg hne

/-- C20 at the table holding `region_zero` followed by a region of 1 MiB. -/
theorem zero_length_region_rejected_witness :
    (sg_dma_len region_zero = 0 ∧ sg_dma_len region_zero < 4294967296) ∧
    (((msm_ion_secure_table kernel_ok { sgl := region_zero :: [region_1M_b], nents := 2 }
          no_flags).code = some (-EINVAL) ∧
        monitor_calls (msm_ion_secure_table kernel_ok
          { sgl := region_zero :: [region_1M_b], nents := 2 } no_flags).world.log = [] ∧
        (msm_ion_secure_table kernel_ok { sgl := region_zero :: [region_1M_b], nents := 2 }
          no_flags).world.PagePrivate = no_flags) ∧
      ((msm_ion_unsecure_table kernel_ok { sgl := region_zero :: [region_1M_b], nents := 2 }
          no_flags).code = some (-EINVAL) ∧
        monitor_calls (msm_ion_unsecure_table kernel_ok
          { sgl := region_zero :: [region_1M_b], nents := 2 } no_flags).world.log = [] ∧
        (msm_ion_unsecure_table kernel_ok { sgl := region_zero :: [region_1M_b], nents := 2 }
          no_flags).world.PagePrivate = no_flags)) ∧
    ((to_int (sg_dma_len region_zero) = 0 ∨
        (to_int (sg_dma_len region_zero)).tmod V2_CHUNK_SIZE ≠ 0)
      ↔ (sg_dma_len region_zero = 0 ∨ sg_dma_len region_zero % 1048576 ≠ 0)) :=
  ⟨by decide,
    (zero_length_region_rejected kernel_ok 1 region_zero [region_1M_b] 2 no_flags 0
      world_zero).1 (by decide),
    (zero_length_region_rejected kernel_ok 1 region_zero [region_1M_b] 2 no_flags 0
      world_zero).2.2 (by decide)⟩

end SecureBuffer
